import Mathlib

/-!
Verification of the alerting / query / indicator core of the crypto
technical-analysis service.  The definitions below are shallow embeddings of
the Python source:

* `src/alerts/alert_manager.py`   — alert evaluator, dispatcher, rule updates
* `src/alerts/query_engine.py`    — predicate compiler and query execution
* `src/database/mongo_client.py`  — candle-store upsert
* `src/data_collector/ccxt_collector.py` — incremental ingestion step
* `src/indicators/calculator.py`  — the KDJ loop
* `src/indicators/signals.py`     — the signal detectors

Wall-clock instants are embedded as integers (seconds); floats are embedded
as rationals (the claims only touch exact comparisons and affine updates);
Python dictionaries appearing in Mongo queries and documents are association
lists with Python `dict.update` semantics.
-/

namespace Spec2Proof

/-! ## Alert rule state and frequency checks (`alert_manager.py`) -/

/-- `AlertFrequency` from `src/alerts/models.py`. -/
inductive AlertFrequency where
  | once
  | every_time
  | daily
  | hourly
deriving DecidableEq, Repr

/-- The fields of an `AlertRule` consulted by the evaluator's scheduling
decision: `frequency`, `trigger_count`, `last_triggered_at`
(`src/alerts/models.py`). `last_triggered_at` is `none` for a rule that has
never triggered. -/
structure RuleSched where
  frequency : AlertFrequency
  trigger_count : Nat
  last_triggered_at : Option Int
deriving DecidableEq, Repr

/-- `AlertManager._should_check_rule` (`alert_manager.py` lines 225–242),
with `now` the evaluator's `datetime.utcnow()` in seconds.  One hour is
3600 s and `timedelta(days=1)` is 86400 s. -/
def shouldCheckRule (now : Int) (r : RuleSched) : Bool :=
  if r.frequency = AlertFrequency.once ∧ r.trigger_count > 0 then
    false
  else
    match r.last_triggered_at with
    | some last =>
        if r.frequency = AlertFrequency.hourly ∧ now - last < 3600 then
          false
        else if r.frequency = AlertFrequency.daily ∧ now - last < 86400 then
          false
        else
          true
    | none => true

/-- One evaluator tick for a single rule (`check_alert_rules` +
`_check_single_rule` + the rule-state update in `_trigger_alert`): when the
rule passes `_should_check_rule` and its predicate matches the latest bar
(`matched` — `query_result.matched_records > 0`), `_trigger_alert` sets
`last_triggered_at := now`, increments `trigger_count` by one and appends a
trigger-history record stamped `now`; otherwise nothing happens and no
record is produced. -/
def evalTick (now : Int) (matched : Bool) (r : RuleSched) :
    RuleSched × Option Int :=
  if shouldCheckRule now r ∧ matched then
    ({ r with trigger_count := r.trigger_count + 1,
              last_triggered_at := some now }, some now)
  else
    (r, none)

/-- A sequence of evaluator ticks applied to one rule.  Each tick carries its
wall-clock instant and whether the rule's predicate matched on that tick.
Returns the final rule state and the trigger-history instants produced, in
order. -/
def runTicks (r : RuleSched) : List (Int × Bool) → RuleSched × List Int
  | [] => (r, [])
  | (now, m) :: rest =>
      let step := evalTick now m r
      let tail := runTicks step.1 rest
      (tail.1, step.2.toList ++ tail.2)

/-- Records of a run, prefixed by the rule's `last_triggered_at` when set.
Used to carry the spacing invariant through the induction. -/
def recordsFrom (r : RuleSched) (ticks : List (Int × Bool)) : List Int :=
  (r.last_triggered_at.toList) ++ (runTicks r ticks).2

theorem runTicks_nil (r : RuleSched) : runTicks r [] = (r, []) := rfl

theorem runTicks_cons (r : RuleSched) (now : Int) (m : Bool)
    (rest : List (Int × Bool)) :
    runTicks r ((now, m) :: rest) =
      ((runTicks (evalTick now m r).1 rest).1,
       (evalTick now m r).2.toList ++ (runTicks (evalTick now m r).1 rest).2) := rfl

/-- A `once` rule that has already triggered never triggers again, so the
records of any run from `trigger_count = c` number at most `1 - min c 1`…
stated here in the form actually needed: starting from any state, a `once`
rule with positive `trigger_count` produces no records. -/
theorem once_pos_no_records (r : RuleSched) (hf : r.frequency = AlertFrequency.once)
    (hc : 0 < r.trigger_count) :
    ∀ ticks, (runTicks r ticks).2 = [] := by
  intro ticks
  induction ticks generalizing r with
  | nil => rfl
  | cons t rest ih =>
      obtain ⟨now, m⟩ := t
      have hskip : shouldCheckRule now r = false := by
        unfold shouldCheckRule
        simp [hf, hc]
      have hstep : evalTick now m r = (r, none) := by
        unfold evalTick
        simp [hskip]
      rw [runTicks_cons, hstep]
      simpa using ih r hf hc

/-- A fresh `once` rule produces at most one trigger-history record over any
run of evaluator ticks. -/
theorem once_records_le_one (r : RuleSched) (hf : r.frequency = AlertFrequency.once)
    (hc : r.trigger_count = 0) :
    ∀ ticks, (runTicks r ticks).2.length ≤ 1 := by
  intro ticks
  induction ticks generalizing r with
  | nil => simp [runTicks]
  | cons t rest ih =>
      obtain ⟨now, m⟩ := t
      rw [runTicks_cons]
      by_cases h : (shouldCheckRule now r ∧ m = true)
      · have hstep : evalTick now m r =
            ({ r with trigger_count := r.trigger_count + 1,
                      last_triggered_at := some now }, some now) := by
          unfold evalTick
          simp [h.1, h.2]
        have hafter : (runTicks (evalTick now m r).1 rest).2 = [] := by
          rw [hstep]
          exact once_pos_no_records
            { r with trigger_count := r.trigger_count + 1,
                     last_triggered_at := some now }
            hf (Nat.succ_pos _) rest
        rw [hafter, hstep]
        simp
      · have hstep : evalTick now m r = (r, none) := by
          unfold evalTick
          by_cases hs : shouldCheckRule now r
          · have hm : m = false := by
              cases m
              · rfl
              · exact absurd ⟨hs, rfl⟩ h
            simp [hm]
          · simp [hs]
        rw [hstep]
        simpa using ih r hf hc

/-- For a rule of the given frequency with time-gap bound `gap` (3600 for
`hourly`, 86400 for `daily`), the record instants of a run, prefixed by the
incoming `last_triggered_at`, form a chain with consecutive gaps ≥ `gap`. -/
theorem records_chain_gap (gap : Int) (f : AlertFrequency)
    (hgap : (f = AlertFrequency.hourly ∧ gap = 3600) ∨
            (f = AlertFrequency.daily ∧ gap = 86400)) :
    ∀ (ticks : List (Int × Bool)) (r : RuleSched), r.frequency = f →
      List.Chain' (fun a b => a + gap ≤ b) (recordsFrom r ticks) := by
  intro ticks
  induction ticks with
  | nil =>
      intro r _
      unfold recordsFrom
      rw [runTicks_nil]
      cases r.last_triggered_at <;> simp
  | cons t rest ih =>
      intro r hrf
      obtain ⟨now, m⟩ := t
      unfold recordsFrom
      rw [runTicks_cons]
      by_cases h : (shouldCheckRule now r ∧ m = true)
      · have hstep : evalTick now m r =
            ({ r with trigger_count := r.trigger_count + 1,
                      last_triggered_at := some now }, some now) := by
          unfold evalTick
          simp [h.1, h.2]
        have htail := ih { r with trigger_count := r.trigger_count + 1,
                                  last_triggered_at := some now } hrf
        unfold recordsFrom at htail
        rw [hstep]
        simp only [Option.toList_some] at htail ⊢
        cases hlast : r.last_triggered_at with
        | none => simpa using htail
        | some last =>
            -- the tick passed `_should_check_rule`, so `now - last ≥ gap`
            have hsc := h.1
            unfold shouldCheckRule at hsc
            rw [hlast] at hsc
            have hge : last + gap ≤ now := by
              rcases hgap with ⟨hf, hg⟩ | ⟨hf, hg⟩
              · subst hf; subst hg
                by_contra hlt
                push_neg at hlt
                have : now - last < 3600 := by omega
                simp [hrf, this] at hsc
              · subst hf; subst hg
                by_contra hlt
                push_neg at hlt
                have : now - last < 86400 := by omega
                have hnh : r.frequency ≠ AlertFrequency.hourly := by
                  rw [hrf]; intro hcon; cases hcon
                simp [hrf, this, hnh] at hsc
            simp only [List.singleton_append] at htail ⊢
            exact List.Chain'.cons hge htail
      · have hstep : evalTick now m r = (r, none) := by
          unfold evalTick
          by_cases hs : shouldCheckRule now r
          · have hm : m = false := by
              cases m
              · rfl
              · exact absurd ⟨hs, rfl⟩ h
            simp [hm]
          · simp [hs]
        have htail := ih r hrf
        unfold recordsFrom at htail
        rw [hstep]
        simpa using htail

/-- The gap relation is transitive for positive gaps, so a chain gives
pairwise separation. -/
theorem records_pairwise_gap (gap : Int) (hpos : 0 < gap) (f : AlertFrequency)
    (hgap : (f = AlertFrequency.hourly ∧ gap = 3600) ∨
            (f = AlertFrequency.daily ∧ gap = 86400))
    (ticks : List (Int × Bool)) (r : RuleSched) (hrf : r.frequency = f) :
    List.Pairwise (fun a b => a + gap ≤ b) (runTicks r ticks).2 := by
  have hchain := records_chain_gap gap f hgap ticks r hrf
  haveI : IsTrans Int (fun a b : Int => a + gap ≤ b) :=
    ⟨fun a b c hab hbc => by omega⟩
  have hpair : List.Pairwise (fun a b : Int => a + gap ≤ b) (recordsFrom r ticks) :=
    List.chain'_iff_pairwise.mp hchain
  unfold recordsFrom at hpair
  exact (List.pairwise_append.mp hpair).2.1

/-- C1: the evaluator's should-check decision obeys the frequency limits
(`once` with positive `trigger_count` is skipped with no query and no record;
`hourly` within 1 h of `last_triggered_at` is skipped; `daily` within 24 h is
skipped; `every_time` is always checked), and consequently a fresh `once`
rule produces at most one trigger-history record, and any two records of an
`hourly` (resp. `daily`) rule are at least 1 h (resp. 24 h) apart. -/
theorem frequency_honor :
    (∀ (now : Int) (r : RuleSched) (m : Bool),
        r.frequency = AlertFrequency.once → 0 < r.trigger_count →
        shouldCheckRule now r = false ∧ evalTick now m r = (r, none)) ∧
    (∀ (now last : Int) (r : RuleSched) (m : Bool),
        r.frequency = AlertFrequency.hourly → r.last_triggered_at = some last →
        now - last < 3600 →
        shouldCheckRule now r = false ∧ evalTick now m r = (r, none)) ∧
    (∀ (now last : Int) (r : RuleSched) (m : Bool),
        r.frequency = AlertFrequency.daily → r.last_triggered_at = some last →
        now - last < 86400 →
        shouldCheckRule now r = false ∧ evalTick now m r = (r, none)) ∧
    (∀ (now : Int) (r : RuleSched),
        r.frequency = AlertFrequency.every_time → shouldCheckRule now r = true) ∧
    (∀ (r : RuleSched) (ticks : List (Int × Bool)),
        r.frequency = AlertFrequency.once → r.trigger_count = 0 →
        (runTicks r ticks).2.length ≤ 1) ∧
    (∀ (r : RuleSched) (ticks : List (Int × Bool)),
        r.frequency = AlertFrequency.hourly →
        List.Pairwise (fun a b => a + 3600 ≤ b) (runTicks r ticks).2) ∧
    (∀ (r : RuleSched) (ticks : List (Int × Bool)),
        r.frequency = AlertFrequency.daily →
        List.Pairwise (fun a b => a + 86400 ≤ b) (runTicks r ticks).2) := by
  refine ⟨?_, ?_, ?_, ?_, ?_, ?_, ?_⟩
  · intro now r m hf hc
    have hs : shouldCheckRule now r = false := by
      unfold shouldCheckRule; simp [hf, hc]
    exact ⟨hs, by unfold evalTick; simp [hs]⟩
  · intro now last r m hf hl hlt
    have hs : shouldCheckRule now r = false := by
      unfold shouldCheckRule
      have hnotonce : ¬(r.frequency = AlertFrequency.once ∧ 0 < r.trigger_count) := by
        rintro ⟨h1, -⟩
        rw [hf] at h1
        cases h1
      simp only [hnotonce, if_false, hl]
      simp [hf, hlt]
    exact ⟨hs, by unfold evalTick; simp [hs]⟩
  · intro now last r m hf hl hlt
    have hs : shouldCheckRule now r = false := by
      unfold shouldCheckRule
      have hnotonce : ¬(r.frequency = AlertFrequency.once ∧ 0 < r.trigger_count) := by
        rintro ⟨h1, -⟩
        rw [hf] at h1
        cases h1
      have hnothourly : r.frequency ≠ AlertFrequency.hourly := by
        rw [hf]; intro h; cases h
      simp only [hnotonce, if_false, hl]
      simp [hf, hlt, hnothourly]
    exact ⟨hs, by unfold evalTick; simp [hs]⟩
  · intro now r hf
    unfold shouldCheckRule
    have h1 : r.frequency ≠ AlertFrequency.once := by rw [hf]; intro h; cases h
    have h2 : r.frequency ≠ AlertFrequency.hourly := by rw [hf]; intro h; cases h
    have h3 : r.frequency ≠ AlertFrequency.daily := by rw [hf]; intro h; cases h
    cases r.last_triggered_at <;> simp [h1, h2, h3]
  · intro r ticks hf hc
    exact once_records_le_one r hf hc ticks
  · intro r ticks hf
    exact records_pairwise_gap 3600 (by norm_num) AlertFrequency.hourly
      (Or.inl ⟨rfl, rfl⟩) ticks r hf
  · intro r ticks hf
    exact records_pairwise_gap 86400 (by norm_num) AlertFrequency.daily
      (Or.inr ⟨rfl, rfl⟩) ticks r hf

/-- Witness for `frequency_honor` at concrete inputs: a triggered `once`
rule is skipped, an `every_time` rule is always checked, a rule last
triggered 100 s ago is skipped under `hourly`, and a fresh `once` rule run
over two matching ticks yields at most one record. -/
theorem frequency_honor_witness :
    (shouldCheckRule 0 ⟨AlertFrequency.once, 1, none⟩ = false ∧
      evalTick 0 true ⟨AlertFrequency.once, 1, none⟩ = (⟨AlertFrequency.once, 1, none⟩, none)) ∧
    (shouldCheckRule 100 ⟨AlertFrequency.hourly, 1, some 0⟩ = false ∧
      evalTick 100 true ⟨AlertFrequency.hourly, 1, some 0⟩ =
        (⟨AlertFrequency.hourly, 1, some 0⟩, none)) ∧
    (shouldCheckRule 100 ⟨AlertFrequency.daily, 1, some 0⟩ = false ∧
      evalTick 100 true ⟨AlertFrequency.daily, 1, some 0⟩ =
        (⟨AlertFrequency.daily, 1, some 0⟩, none)) ∧
    shouldCheckRule 0 ⟨AlertFrequency.every_time, 5, some 0⟩ = true ∧
    (runTicks ⟨AlertFrequency.once, 0, none⟩ [(0, true), (10, true)]).2.length ≤ 1 ∧
    List.Pairwise (fun a b => a + 3600 ≤ b)
      (runTicks ⟨AlertFrequency.hourly, 0, none⟩ [(0, true), (10, true), (4000, true)]).2 :=
  ⟨frequency_honor.1 0 _ true rfl (by decide),
   frequency_honor.2.1 100 0 _ true rfl rfl (by decide),
   frequency_honor.2.2.1 100 0 _ true rfl rfl (by decide),
   frequency_honor.2.2.2.1 0 _ rfl,
   frequency_honor.2.2.2.2.1 _ _ rfl rfl,
   frequency_honor.2.2.2.2.2.1 _ _ rfl⟩

/-! ## Notification dispatch (`AlertManager._trigger_alert`, lines 306–359) -/

/-- A JSON value as decoded from the webhook response body (the claims only
touch scalar `success` fields). -/
inductive JVal where
  | jbool (b : Bool)
  | jnum (q : Rat)
  | jstr (s : String)
  | jnull
deriving DecidableEq, Repr

/-- Python truthiness of a decoded JSON scalar.  This is the reading
"truthy `success` field" of the claim; the program does NOT apply
truthiness to the recorded `message_sent` — see `pydanticBool`. -/
def jtruthy : JVal → Bool
  | .jbool b => b
  | .jnum q => q ≠ 0
  | .jstr s => s ≠ ""
  | .jnull => false

/-- Pydantic's bool coercion, applied when the raw `success` value is
assigned to `AlertTriggerResult.message_sent : bool`
(`models.py` line 207): bools pass through; the strings
1/on/t/true/y/yes and 0/off/f/false/n/no (case-insensitive) coerce; the
numbers 1 and 0 coerce; any other value raises a ValidationError
(`none`).  Pydantic v1 and v2 agree on these cases. -/
def pydanticBool : JVal → Option Bool
  | .jbool b => some b
  | .jstr s =>
      let l : String := ⟨s.data.map Char.toLower⟩
      if l ∈ ["1", "on", "t", "true", "y", "yes"] then some true
      else if l ∈ ["0", "off", "f", "false", "n", "no"] then some false
      else none
  | .jnum q =>
      if q = 1 then some true else if q = 0 then some false else none
  | .jnull => none

/-- `dict.get` over a decoded JSON object. -/
def jsonGet (fields : List (String × JVal)) (k : String) : Option JVal :=
  (fields.find? (fun p => p.1 == k)).map (·.2)

/-- The observable outcome of `requests.post` in `_trigger_alert`:
either an HTTP response with a status code, a body text and the outcome of
`response.json()` (`Except.error` carries the decode exception's message —
with the `requests` library the decode error is a `RequestException`), or a
transport-level `requests.exceptions.RequestException` with its message. -/
inductive HttpResult where
  | resp (status : Nat) (text : String) (decoded : Except String (List (String × JVal)))
  | requestException (msg : String)
deriving Repr

/-- The `webhook_response` value recorded into history: the decoded body
on a 200, or an error dict `{"error": …}` possibly carrying a truncated
`"response"` text. -/
inductive WebhookResp where
  | ok (fields : List (String × JVal))
  | err (error : String) (response : Option String)
deriving DecidableEq, Repr

/-- Python string slicing `s[:n]` (first `n` characters). -/
def pyTruncate (s : String) (n : Nat) : String := ⟨s.data.take n⟩

/-- The runtime value of the `message_sent` variable at the end of the
POST block: initialized `False` (line 307), replaced by the raw
`webhook_response.get("success", False)` only on a 200 whose body
decodes. -/
def rawSent (fields : List (String × JVal)) : JVal :=
  match jsonGet fields "success" with
  | some v => v
  | none => JVal.jbool false

/-- The POST/parse block of `_trigger_alert` (lines 310–336): status 200 →
decode body and take its raw `success` value (default `False`); any other
status → `message_sent` stays `False` and the error dict records
`response.text[:500]`; a raised `RequestException` (including a
JSON-decode failure on a 200) → `False` with the error string
untruncated. -/
def runWebhookPost (http : HttpResult) : JVal × WebhookResp :=
  match http with
  | .resp status text decoded =>
      if status = 200 then
        match decoded with
        | .ok fields => (rawSent fields, WebhookResp.ok fields)
        | .error msg =>
            (JVal.jbool false, WebhookResp.err ("网络请求异常: " ++ msg) none)
      else
        (JVal.jbool false,
         WebhookResp.err ("外部API响应错误: " ++ toString status)
           (some (pyTruncate text 500)))
  | .requestException msg =>
      (JVal.jbool false, WebhookResp.err ("网络请求异常: " ++ msg) none)

/-- The persisted rule fields touched by `_trigger_alert`'s
`update_alert_rule` call. -/
structure RuleDoc where
  id : String
  trigger_count : Nat
  last_triggered_at : Option Int
deriving DecidableEq, Repr

/-- A trigger-history document as inserted by `_trigger_alert`
(lines 344–359). -/
structure HistoryRecord where
  rule_id : String
  trigger_time : Int
  message_sent : Bool
  webhook_response : WebhookResp
deriving DecidableEq, Repr

/-- `_trigger_alert` after the envelope is built: attempt the POST, then —
unconditionally, before any history write — set `last_triggered_at := now`
and increment `trigger_count` (lines 338–342); then construct the
`AlertTriggerResult`, whose `message_sent : bool` field coerces the raw
success value (`pydanticBool`) and raises a ValidationError on a
non-coercible one, and insert it into history (lines 344–359).  Returns
the updated rule, the new history, and `some` recorded `message_sent` —
or `none` when the construction raises, the insert is skipped and the
exception propagates. -/
def triggerAlert (now : Int) (http : HttpResult) (r : RuleDoc)
    (hist : List HistoryRecord) :
    RuleDoc × List HistoryRecord × Option Bool :=
  let post := runWebhookPost http
  let r2 : RuleDoc := { r with last_triggered_at := some now,
                               trigger_count := r.trigger_count + 1 }
  (r2,
   match pydanticBool post.1 with
   | some b =>
       (hist ++ [{ rule_id := r.id, trigger_time := now,
                   message_sent := b, webhook_response := post.2 }], some b)
   | none => (hist, none))

/-- The unfolded shape of `triggerAlert`. -/
theorem triggerAlert_eq (now : Int) (http : HttpResult) (r : RuleDoc)
    (hist : List HistoryRecord) :
    triggerAlert now http r hist =
      ({ r with last_triggered_at := some now,
                trigger_count := r.trigger_count + 1 },
       match pydanticBool (runWebhookPost http).1 with
       | some b =>
           (hist ++ [{ rule_id := r.id, trigger_time := now, message_sent := b,
                       webhook_response := (runWebhookPost http).2 }], some b)
       | none => (hist, none)) := rfl

/-- The POST result on a non-200 status. -/
theorem runWebhookPost_non200 (status : Nat) (text : String)
    (decoded : Except String (List (String × JVal))) (h : status ≠ 200) :
    runWebhookPost (.resp status text decoded) =
      (JVal.jbool false,
       WebhookResp.err ("外部API响应错误: " ++ toString status)
         (some (pyTruncate text 500))) := by
  unfold runWebhookPost
  dsimp only
  rw [if_neg h]

/-- C2: whatever the webhook outcome — a 200 with any `success` value
(bool-coercible or not), a non-2xx status, a JSON-decode failure, or a
transport exception — `_trigger_alert` sets `last_triggered_at` to the
trigger instant and increments `trigger_count` by exactly one.  The rule
update precedes the history write, so it holds even on the path where the
history insert is aborted by the `message_sent` coercion error (and then
no record is written). -/
theorem dispatch_liveness :
    ∀ (now : Int) (http : HttpResult) (r : RuleDoc) (hist : List HistoryRecord),
      (triggerAlert now http r hist).1.last_triggered_at = some now ∧
      (triggerAlert now http r hist).1.trigger_count = r.trigger_count + 1 ∧
      ((triggerAlert now http r hist).2.2 = none →
        (triggerAlert now http r hist).2.1 = hist) := by
  intro now http r hist
  refine ⟨rfl, rfl, ?_⟩
  intro h
  rw [triggerAlert_eq] at h ⊢
  cases hp : pydanticBool (runWebhookPost http).1 with
  | none => rfl
  | some b =>
      rw [hp] at h
      exact absurd h (by simp)

/-- Witness for `dispatch_liveness` at a 200 whose `success` value `2` is
not bool-coercible: the rule update still happens and no history record is
written. -/
theorem dispatch_liveness_witness :
    (triggerAlert 7 (.resp 200 "x" (.ok [("success", JVal.jnum 2)]))
        ⟨"r1", 3, none⟩ []).1.trigger_count = 4 ∧
    (triggerAlert 7 (.resp 200 "x" (.ok [("success", JVal.jnum 2)]))
        ⟨"r1", 3, none⟩ []).2.1 = [] :=
  ⟨(dispatch_liveness 7 (.resp 200 "x" (.ok [("success", JVal.jnum 2)]))
      ⟨"r1", 3, none⟩ []).2.1,
   (dispatch_liveness 7 (.resp 200 "x" (.ok [("success", JVal.jnum 2)]))
      ⟨"r1", 3, none⟩ []).2.2 rfl⟩

/-- The 600-character exception message used in the counterexample below. -/
def longExcMsg : String := ⟨List.replicate 600 'x'⟩

set_option maxRecDepth 10000 in
/-- C3 counterexample: the claim reads "message_sent is true iff the HTTP
response has a 2xx status and the decoded JSON body has a truthy `success`
field" and "the raw response or error string is truncated to at most 500
characters".  Three failures on the code: a 201 response (2xx) with
`success: true` is recorded not sent, because the code tests
`status_code == 200`; a 200 whose `success` is the truthy string "false"
is recorded `False`, because pydantic bool coercion — not Python
truthiness — decides the recorded value; and a transport exception whose
message has 600 characters is recorded untruncated (608 > 500). -/
theorem message_sent_counterexample :
    (triggerAlert 0 (.resp 201 "\x7b\"success\": true\x7d"
        (.ok [("success", JVal.jbool true)])) ⟨"r1", 0, none⟩ []).2.2 =
      some false ∧
    (200 ≤ 201 ∧ 201 < 300) ∧
    jtruthy (JVal.jbool true) = true ∧
    (triggerAlert 0 (.resp 200 "body" (.ok [("success", JVal.jstr "false")]))
        ⟨"r1", 0, none⟩ []).2.2 = some false ∧
    jtruthy (JVal.jstr "false") = true ∧
    (runWebhookPost (.requestException longExcMsg)).2 =
      WebhookResp.err ("网络请求异常: " ++ longExcMsg) none ∧
    500 < ("网络请求异常: " ++ longExcMsg).length := by
  refine ⟨rfl, ⟨by norm_num, by norm_num⟩, rfl, rfl, rfl, rfl, ?_⟩
  have h : ("网络请求异常: " ++ longExcMsg).length = 608 := by decide
  omega

/-- C3 amended: the recorded `message_sent` is decided by pydantic's bool
coercion of the raw `success` value, not by 2xx-ness or truthiness.  On a
200 with a decoded body, the recorded value is the coercion of `success`
(default `False`), and the history record is written exactly when the
coercion succeeds — a non-coercible `success` aborts the insert (after the
rule update).  On a non-200 status, a decode failure, or a transport
exception, `message_sent` is recorded `False` and a record is still
written; a non-200 response body is truncated to at most 500 characters,
while a decode-failure or transport-error string is recorded in full. -/
theorem message_sent_semantics :
    (∀ (text : String) (fields : List (String × JVal)) (now : Int)
        (r : RuleDoc) (hist : List HistoryRecord),
        (triggerAlert now (.resp 200 text (.ok fields)) r hist).2.2 =
          pydanticBool (rawSent fields) ∧
        (pydanticBool (rawSent fields) = none →
          (triggerAlert now (.resp 200 text (.ok fields)) r hist).2.1 = hist) ∧
        (∀ b : Bool, pydanticBool (rawSent fields) = some b →
          (triggerAlert now (.resp 200 text (.ok fields)) r hist).2.1 =
            hist ++ [{ rule_id := r.id, trigger_time := now, message_sent := b,
                       webhook_response := WebhookResp.ok fields }])) ∧
    (∀ (status : Nat) (text : String)
        (decoded : Except String (List (String × JVal))) (now : Int)
        (r : RuleDoc) (hist : List HistoryRecord), status ≠ 200 →
        (triggerAlert now (.resp status text decoded) r hist).2.2 = some false ∧
        (triggerAlert now (.resp status text decoded) r hist).2.1 =
          hist ++ [{ rule_id := r.id, trigger_time := now, message_sent := false,
                     webhook_response := WebhookResp.err
                       ("外部API响应错误: " ++ toString status)
                       (some (pyTruncate text 500)) }] ∧
        (pyTruncate text 500).length ≤ 500) ∧
    (∀ (text msg : String) (now : Int) (r : RuleDoc) (hist : List HistoryRecord),
        (triggerAlert now (.resp 200 text (.error msg)) r hist).2.2 = some false ∧
        (triggerAlert now (.resp 200 text (.error msg)) r hist).2.1 =
          hist ++ [{ rule_id := r.id, trigger_time := now, message_sent := false,
                     webhook_response :=
                       WebhookResp.err ("网络请求异常: " ++ msg) none }]) ∧
    (∀ (msg : String) (now : Int) (r : RuleDoc) (hist : List HistoryRecord),
        (triggerAlert now (.requestException msg) r hist).2.2 = some false ∧
        (triggerAlert now (.requestException msg) r hist).2.1 =
          hist ++ [{ rule_id := r.id, trigger_time := now, message_sent := false,
                     webhook_response :=
                       WebhookResp.err ("网络请求异常: " ++ msg) none }]) := by
  have hsent : ∀ (text : String) (fields : List (String × JVal)),
      (runWebhookPost (.resp 200 text (.ok fields))).1 = rawSent fields :=
    fun _ _ => rfl
  refine ⟨?_, ?_, ?_, ?_⟩
  · intro text fields now r hist
    refine ⟨?_, ?_, ?_⟩
    · rw [triggerAlert_eq, hsent]
      cases hp : pydanticBool (rawSent fields) with
      | none => rfl
      | some b => rfl
    · intro hp
      rw [triggerAlert_eq, hsent, hp]
    · intro b hp
      rw [triggerAlert_eq, hsent, hp]
      rfl
  · intro status text decoded now r hist hne
    refine ⟨?_, ?_, ?_⟩
    · rw [triggerAlert_eq, runWebhookPost_non200 status text decoded hne]
      rfl
    · rw [triggerAlert_eq, runWebhookPost_non200 status text decoded hne]
      rfl
    · show (List.take 500 text.data).length ≤ 500
      exact List.length_take_le 500 text.data
  · intro text msg now r hist
    exact ⟨rfl, rfl⟩
  · intro msg now r hist
    exact ⟨rfl, rfl⟩

/-- Witness for `message_sent_semantics`: a non-coercible `success` (the
number 2) skips the insert, a bool `success: true` is recorded `True`, a
500 response is recorded `False` with the truncated body, and a transport
exception is recorded `False`. -/
theorem message_sent_semantics_witness :
    (triggerAlert 7 (.resp 200 "x" (.ok [("success", JVal.jnum 2)]))
        ⟨"r1", 3, none⟩ []).2.1 = [] ∧
    (triggerAlert 7 (.resp 200 "x" (.ok [("success", JVal.jbool true)]))
        ⟨"r1", 3, none⟩ []).2.1 =
      [{ rule_id := "r1", trigger_time := 7, message_sent := true,
         webhook_response := WebhookResp.ok [("success", JVal.jbool true)] }] ∧
    (triggerAlert 7 (.resp 500 "boom" (.error "decode")) ⟨"r1", 3, none⟩ []).2.2 =
      some false ∧
    (triggerAlert 7 (.resp 500 "boom" (.error "decode")) ⟨"r1", 3, none⟩ []).2.1 =
      [{ rule_id := "r1", trigger_time := 7, message_sent := false,
         webhook_response := WebhookResp.err "外部API响应错误: 500" (some "boom") }] ∧
    (triggerAlert 7 (.requestException "timeout") ⟨"r1", 3, none⟩ []).2.2 =
      some false := by
  have h200 := message_sent_semantics.1 "x" [("success", JVal.jnum 2)] 7
    ⟨"r1", 3, none⟩ []
  have hok := message_sent_semantics.1 "x" [("success", JVal.jbool true)] 7
    ⟨"r1", 3, none⟩ []
  have h500 := message_sent_semantics.2.1 500 "boom" (.error "decode") 7
    ⟨"r1", 3, none⟩ [] (by decide)
  have hexc := message_sent_semantics.2.2.2 "timeout" 7 ⟨"r1", 3, none⟩ []
  refine ⟨h200.2.1 rfl, ?_, h500.1, ?_, hexc.1⟩
  · rw [hok.2.2 true rfl]
    rfl
  · rw [h500.2.1]
    rfl

/-! ## Documents, Mongo filters and their evaluation

`query_engine.py` compiles predicate trees to MongoDB filter dictionaries
and runs them against the kline collection.  Documents and filters are
embedded as association lists; floats as rationals; `datetime` values as
integer seconds. -/

/-- A BSON value: stored document fields and filter constants. -/
inductive BVal where
  | num (q : Rat)
  | str (s : String)
  | time (t : Int)
  | arr (l : List BVal)
  | obj (fields : List (String × BVal))
  | nullv
deriving Repr

mutual

/-- Structural equality of BSON values. -/
def bvalBeq : BVal → BVal → Bool
  | .num a, .num b => a == b
  | .str a, .str b => a == b
  | .time a, .time b => a == b
  | .arr a, .arr b => bvalBeqList a b
  | .obj a, .obj b => bvalBeqObj a b
  | .nullv, .nullv => true
  | _, _ => false
  termination_by structural v => v

/-- Pointwise equality of BSON arrays. -/
def bvalBeqList : List BVal → List BVal → Bool
  | [], [] => true
  | a :: as, b :: bs => bvalBeq a b && bvalBeqList as bs
  | _, _ => false
  termination_by structural v => v

/-- Pointwise equality of BSON objects. -/
def bvalBeqObj : List (String × BVal) → List (String × BVal) → Bool
  | [], [] => true
  | (ka, va) :: as, (kb, vb) :: bs => ka == kb && bvalBeq va vb && bvalBeqObj as bs
  | _, _ => false
  termination_by structural v => v

end

instance : BEq BVal := ⟨bvalBeq⟩

/-- A stored document (a kline row, an alert rule, …). -/
abbrev Doc := List (String × BVal)

/-- Field access on one level of a document. -/
def docGet (d : Doc) (k : String) : Option BVal :=
  (d.find? (fun p => p.1 == k)).map (·.2)

/-- Dotted-path field access, as Mongo resolves `"kdj.k"`. -/
def docGetPath (d : Doc) : List String → Option BVal
  | [] => none
  | [k] => docGet d k
  | k :: rest =>
      match docGet d k with
      | some (BVal.obj sub) => docGetPath sub rest
      | _ => none

/-- Split a field name at the dots (`"kdj.k".splitOn "."`). -/
def splitDotAux : List Char → List Char → List String
  | [], acc => [⟨acc.reverse⟩]
  | c :: rest, acc =>
      if c == '.' then ⟨acc.reverse⟩ :: splitDotAux rest []
      else splitDotAux rest (c :: acc)

/-- `path.splitOn "."`. -/
def splitDot (s : String) : List String := splitDotAux s.data []

/-- Resolve a (possibly dotted) field name against a document. -/
def docLookup (d : Doc) (path : String) : Option BVal :=
  docGetPath d (splitDot path)

/-- Three-way comparison of BSON values of the same scalar type;
cross-type comparisons never match (`none`). -/
def bvalCmp : BVal → BVal → Option Ordering
  | .num a, .num b =>
      some (if a < b then Ordering.lt else if b < a then Ordering.gt else Ordering.eq)
  | .str a, .str b =>
      some (if a < b then Ordering.lt else if b < a then Ordering.gt else Ordering.eq)
  | .time a, .time b =>
      some (if a < b then Ordering.lt else if b < a then Ordering.gt else Ordering.eq)
  | _, _ => none

/-- Mongo equality-match of a (possibly absent) document field against a
constant: direct equality, array membership for array-valued fields, and
`null` matching an absent field. -/
def matchValue (fv : Option BVal) (v : BVal) : Bool :=
  match fv with
  | none => v == BVal.nullv
  | some dv =>
      dv == v ||
      (match dv with
       | .arr l => l.contains v
       | _ => false)

/-- `$in` match: the field equals (or, for array fields, contains) some
element of the list. -/
def matchIn (fv : Option BVal) (l : List BVal) : Bool :=
  l.any (fun x => matchValue fv x)

/-- Lower-case a string (the `"$options": "i"` flag). -/
def lowerChars (s : String) : List Char := s.data.map Char.toLower

/-- Literal prefix test on character lists. -/
def charsHavePrefix : List Char → List Char → Bool
  | [], _ => true
  | _ :: _, [] => false
  | a :: as, b :: bs => a == b && charsHavePrefix as bs

/-- Literal substring test on character lists. -/
def charsHaveSub (p : List Char) : List Char → Bool
  | [] => charsHavePrefix p []
  | c :: rest => charsHavePrefix p (c :: rest) || charsHaveSub p rest

/-- Case-insensitive test of the regex patterns the compiler emits: a plain
pattern means "substring", a leading `^` anchors at the start, a trailing
`$` anchors at the end.  (The compiler interpolates the value verbatim, so
only these literal shapes arise.) -/
def regexTestCI (pat : String) (s : String) : Bool :=
  match pat.data with
  | '^' :: rest => charsHavePrefix (rest.map Char.toLower) (lowerChars s)
  | p =>
      if p.getLast? == some '$' then
        charsHavePrefix ((p.dropLast.map Char.toLower).reverse) ((lowerChars s).reverse)
      else
        charsHaveSub (p.map Char.toLower) (lowerChars s)

/-- A single field-level Mongo operator as emitted by
`_build_single_condition`. -/
inductive MOp where
  | mne (v : BVal)
  | mgt (v : BVal)
  | mgte (v : BVal)
  | mlt (v : BVal)
  | mlte (v : BVal)
  | minOp (v : BVal)
  | mninOp (v : BVal)
  | mregex (pat : String)
  | mnotRegex (pat : String)
deriving Repr

/-- Evaluate one operator against a (possibly absent) field value.  Ordered
comparisons require a same-type scalar, so `null` and absent fields never
match them; `$ne` is the complement of the equality match; `$in`/`$nin`
require their argument to be an array (the code can emit a scalar there, on
which Mongo errors — embedded as no match). -/
def evalOp (fv : Option BVal) : MOp → Bool
  | .mne v => !(matchValue fv v)
  | .mgt v =>
      match fv with
      | some dv => bvalCmp dv v == some Ordering.gt
      | none => false
  | .mgte v =>
      match fv with
      | some dv => bvalCmp dv v == some Ordering.gt || bvalCmp dv v == some Ordering.eq
      | none => false
  | .mlt v =>
      match fv with
      | some dv => bvalCmp dv v == some Ordering.lt
      | none => false
  | .mlte v =>
      match fv with
      | some dv => bvalCmp dv v == some Ordering.lt || bvalCmp dv v == some Ordering.eq
      | none => false
  | .minOp v =>
      match v with
      | .arr l => matchIn fv l
      | _ => false
  | .mninOp v =>
      match v with
      | .arr l => !(matchIn fv l)
      | _ => false
  | .mregex pat =>
      match fv with
      | some (.str s) => regexTestCI pat s
      | _ => false
  | .mnotRegex pat =>
      match fv with
      | some (.str s) => !(regexTestCI pat s)
      | _ => true

/-- The value slot of one entry of a Mongo filter dictionary. -/
inductive MVal where
  | val (v : BVal)
  | ops (l : List MOp)
  | subs (qs : List (List (String × MVal)))
  | sub (q : List (String × MVal))
deriving Repr

/-- A Mongo filter dictionary. -/
abbrev MDict := List (String × MVal)

mutual

/-- A document satisfies a filter dictionary iff it satisfies every entry. -/
def evalMDict (d : Doc) : MDict → Bool
  | [] => true
  | (k, mv) :: rest => evalEntry d k mv && evalMDict d rest
  termination_by structural m => m

/-- One entry: a direct value is an equality match, an operator dictionary
is a conjunction of operator tests, `$and`/`$or` take lists of
sub-filters.  The compiler can emit a top-level `$not` wrapping one
sub-filter; MongoDB rejects such a filter with a server error at query
time (`$not` is only legal inside a field), so no well-defined semantics
exists for it — the complement here is a placeholder that no theorem below
evaluates (the filters the claims execute never contain `$not`). -/
def evalEntry (d : Doc) (k : String) : MVal → Bool
  | .val v => matchValue (docLookup d k) v
  | .ops l => l.all (fun op => evalOp (docLookup d k) op)
  | .subs qs =>
      if k == "$and" then evalAll d qs
      else if k == "$or" then evalAny d qs
      else false
  | .sub q => if k == "$not" then !(evalMDict d q) else false
  termination_by structural m => m

/-- Conjunction over sub-filters (`$and`). -/
def evalAll (d : Doc) : List MDict → Bool
  | [] => true
  | q :: rest => evalMDict d q && evalAll d rest
  termination_by structural m => m

/-- Disjunction over sub-filters (`$or`). -/
def evalAny (d : Doc) : List MDict → Bool
  | [] => false
  | q :: rest => evalMDict d q || evalAny d rest
  termination_by structural m => m

end

/-! ## The predicate compiler (`query_engine.py` lines 87–252) -/

/-- `QueryField` from `src/alerts/models.py` (`open` is spelled `openF`
etc. because of Lean keywords). -/
inductive QueryField where
  | openF | highF | lowF | closeF | volumeF
  | rsi | macd_line | macd_signal | macd_histogram
  | ma_5 | ma_10 | ma_20 | ma_50
  | bb_upper | bb_middle | bb_lower
  | cci | kdj_k | kdj_d | kdj_j | stoch_k | stoch_d
  | signals | timestamp | timeframe | symbol
deriving DecidableEq, Repr

/-- `QueryEngine._map_field_name` (lines 211–242). -/
def mapFieldName : QueryField → String
  | .openF => "open"
  | .highF => "high"
  | .lowF => "low"
  | .closeF => "close"
  | .volumeF => "volume"
  | .rsi => "rsi"
  | .macd_line => "macd.macd_line"
  | .macd_signal => "macd.macd_signal"
  | .macd_histogram => "macd.macd_histogram"
  | .ma_5 => "ma.ma_5"
  | .ma_10 => "ma.ma_10"
  | .ma_20 => "ma.ma_20"
  | .ma_50 => "ma.ma_50"
  | .bb_upper => "bollinger.upper"
  | .bb_middle => "bollinger.middle"
  | .bb_lower => "bollinger.lower"
  | .cci => "cci"
  | .kdj_k => "kdj.k"
  | .kdj_d => "kdj.d"
  | .kdj_j => "kdj.j"
  | .stoch_k => "stochastic.k"
  | .stoch_d => "stochastic.d"
  | .signals => "signals"
  | .timestamp => "timestamp"
  | .timeframe => "timeframe"
  | .symbol => "symbol"

/-- `QueryOperator` from `src/alerts/models.py`. -/
inductive QueryOperator where
  | eq | ne | gt | gte | lt | lte
  | inOp | nin | between
  | contains | not_contains | starts_with | ends_with
  | within_last | before | after
deriving DecidableEq, Repr

/-- A predicate value as accepted by `QueryCondition.value`
(`Union[str, int, float, List[...]]`); the `int`/`float` split matters for
the `isinstance` checks in the compiler. -/
inductive PyVal where
  | int (n : Int)
  | float (q : Rat)
  | str (s : String)
  | list (l : List PyVal)

mutual

/-- Conversion of a Python predicate value into the BSON constant placed in
the compiled filter. -/
def PyVal.toB : PyVal → BVal
  | .int n => .num (n : Rat)
  | .float q => .num q
  | .str s => .str s
  | .list l => .arr (PyVal.toBList l)

/-- Pointwise conversion of a list value. -/
def PyVal.toBList : List PyVal → List BVal
  | [] => []
  | v :: rest => PyVal.toB v :: PyVal.toBList rest

end

/-- Python `str(value)` for the values interpolated into regex patterns
(string values pass through verbatim; the rendering of non-string values is
only a display form and is never evaluated by a claim). -/
def pyStr : PyVal → String
  | .str s => s
  | .int n => toString n
  | .float q => toString q
  | .list _ => "[...]"

/-- A `QueryCondition` leaf. -/
structure QueryCondition where
  field : QueryField
  operator : QueryOperator
  value : PyVal

/-- `LogicalOperator` from `src/alerts/models.py`. -/
inductive LogicalOperator where
  | andL | orL | notL
deriving DecidableEq, Repr

/-- The recursive predicate tree: a `QueryCondition` leaf or a
`LogicalCondition` node with a list of children. -/
inductive Condition where
  | leaf (c : QueryCondition)
  | node (operator : LogicalOperator) (conditions : List Condition)

/-- The `[value] if isinstance(value, str) else value` argument that
`contains`/`not_contains` on the `signals` field passes to `$in`/`$nin`:
a string is wrapped into a one-element list, anything else is passed
through raw. -/
def containsArg : PyVal → BVal
  | .str s => .arr [.str s]
  | v => v.toB

/-- The `value if isinstance(value, list) else [value]` argument of
`in`/`nin`. -/
def listArg : PyVal → BVal
  | .list l => .arr (PyVal.toBList l)
  | v => .arr [v.toB]

/-- `QueryEngine._build_single_condition` (lines 111–181).  `parseIso`
embeds `datetime.fromisoformat(value.replace('Z', '+00:00'))`: `none` when
that call raises `ValueError`.  `now` is `datetime.utcnow()` and
`_calculate_time_delta` hard-codes hours, so `within_last n` becomes
`timestamp ≥ now − 3600·n`. -/
def buildSingleCondition (parseIso : String → Option Int) (now : Int)
    (c : QueryCondition) : Except String MDict :=
  let fieldName := mapFieldName c.field
  match c.operator with
  | .eq => .ok [(fieldName, .val c.value.toB)]
  | .ne => .ok [(fieldName, .ops [.mne c.value.toB])]
  | .gt => .ok [(fieldName, .ops [.mgt c.value.toB])]
  | .gte => .ok [(fieldName, .ops [.mgte c.value.toB])]
  | .lt => .ok [(fieldName, .ops [.mlt c.value.toB])]
  | .lte => .ok [(fieldName, .ops [.mlte c.value.toB])]
  | .inOp => .ok [(fieldName, .ops [.minOp (listArg c.value)])]
  | .nin => .ok [(fieldName, .ops [.mninOp (listArg c.value)])]
  | .between =>
      match c.value with
      | .list [a, b] => .ok [(fieldName, .ops [.mgte a.toB, .mlte b.toB])]
      | _ => .error "BETWEEN操作符需要包含两个值的列表"
  | .contains =>
      if c.field = QueryField.signals then
        .ok [(fieldName, .ops [.minOp (containsArg c.value)])]
      else
        .ok [(fieldName, .ops [.mregex (pyStr c.value)])]
  | .not_contains =>
      if c.field = QueryField.signals then
        .ok [(fieldName, .ops [.mninOp (containsArg c.value)])]
      else
        .ok [(fieldName, .ops [.mnotRegex (pyStr c.value)])]
  | .starts_with => .ok [(fieldName, .ops [.mregex ("^" ++ pyStr c.value)])]
  | .ends_with => .ok [(fieldName, .ops [.mregex (pyStr c.value ++ "$")])]
  | .within_last =>
      match c.value with
      | .int n => .ok [("timestamp", .ops [.mgte (.time (now - 3600 * n))])]
      | _ => .error "WITHIN_LAST操作符需要整数值"
  | .before =>
      match c.value with
      | .str s =>
          match parseIso s with
          | some t => .ok [("timestamp", .ops [.mlt (.time t)])]
          | none => .error "BEFORE操作符需要有效的日期时间格式"
      | _ => .error "BEFORE操作符需要日期时间字符串"
  | .after =>
      match c.value with
      | .str s =>
          match parseIso s with
          | some t => .ok [("timestamp", .ops [.mgt (.time t)])]
          | none => .error "AFTER操作符需要有效的日期时间格式"
      | _ => .error "AFTER操作符需要日期时间字符串"

mutual

/-- `QueryEngine._build_condition_query` (lines 102–109) together with
`_build_logical_condition` (lines 183–209): leaves compile through
`_build_single_condition`; a logical node compiles its children, drops the
empty sub-filters, and returns `{}` when none remain, the lone sub-filter
when one remains (NOT wraps it in `$not`), and otherwise `$and`/`$or` over
them — NOT with two or more remaining sub-filters raises. -/
def buildConditionQuery (parseIso : String → Option Int) (now : Int) :
    Condition → Except String MDict
  | .leaf c => buildSingleCondition parseIso now c
  | .node op children =>
      match buildSubsList parseIso now children with
      | .error e => .error e
      | .ok [] => .ok []
      | .ok [q] =>
          match op with
          | .andL => .ok q
          | .orL => .ok q
          | .notL => .ok [("$not", MVal.sub q)]
      | .ok qs =>
          match op with
          | .andL => .ok [("$and", MVal.subs qs)]
          | .orL => .ok [("$or", MVal.subs qs)]
          | .notL => .error "NOT操作符只能包含一个子条件"

/-- The `for sub_condition in condition.conditions` loop: compile each
child in order (the first failure propagates) and keep the non-empty
sub-filters. -/
def buildSubsList (parseIso : String → Option Int) (now : Int) :
    List Condition → Except String (List MDict)
  | [] => .ok []
  | c :: rest =>
      match buildConditionQuery parseIso now c with
      | .error e => .error e
      | .ok q =>
          match buildSubsList parseIso now rest with
          | .error e => .error e
          | .ok qs => .ok (if q.isEmpty then qs else q :: qs)

end

/-- Python `dict` insertion: replace an existing key in place, else append. -/
def dictInsert {α : Type} (d : List (String × α)) (k : String) (v : α) :
    List (String × α) :=
  if d.any (fun p => p.1 == k) then
    d.map (fun p => if p.1 == k then (k, v) else p)
  else
    d ++ [(k, v)]

/-- Python `dict.update` / `{**d, …}`. -/
def dictUpdate {α : Type} (d u : List (String × α)) : List (String × α) :=
  u.foldl (fun acc p => dictInsert acc p.1 p.2) d

/-- A `QueryRequest` (`src/alerts/models.py`): symbol, timeframes, a
predicate tree, limit, sort field and direction. -/
structure QueryRequestL where
  symbol : String
  timeframes : List String
  conditions : Condition
  limit : Nat
  sortBy : QueryField
  sortOrderDesc : Bool

/-- `QueryEngine._build_mongo_query` (lines 87–100): the implicit
`symbol == request.symbol` base filter, merged with the compiled
conditions when they are non-empty. -/
def buildMongoQuery (parseIso : String → Option Int) (now : Int)
    (req : QueryRequestL) : Except String MDict :=
  let base : MDict := [("symbol", MVal.val (BVal.str req.symbol))]
  match buildConditionQuery parseIso now req.conditions with
  | .error e => .error e
  | .ok cond => .ok (if cond.isEmpty then base else dictUpdate base cond)

/-! ## Query execution (`QueryEngine.execute_query`, lines 24–85) -/

/-- Rank used to order values of different BSON types under a sort. -/
def bvalRank : BVal → Nat
  | .nullv => 0
  | .num _ => 1
  | .str _ => 2
  | .obj _ => 3
  | .arr _ => 4
  | .time _ => 5

/-- Total comparison used by the store's sort: absent first, then by type
rank, scalars of equal type by value. -/
def sortCmp : Option BVal → Option BVal → Ordering
  | none, none => .eq
  | none, some _ => .lt
  | some _, none => .gt
  | some a, some b =>
      match bvalCmp a b with
      | some o => o
      | none => compare (bvalRank a) (bvalRank b)

/-- `cursor.sort(sort_field, direction)`: the `≤` test on documents. -/
def sortLe (field : String) (desc : Bool) (d1 d2 : Doc) : Bool :=
  match sortCmp (docLookup d1 field) (docLookup d2 field), desc with
  | .lt, false => true
  | .gt, true => true
  | .eq, _ => true
  | _, _ => false

/-- Insert into a sorted list (the store's sort, embedded as insertion
sort; the claims depend only on the row multiset, not the order). -/
def insSorted (le : Doc → Doc → Bool) (d : Doc) : List Doc → List Doc
  | [] => [d]
  | e :: rest => if le d e then d :: e :: rest else e :: insSorted le d rest

/-- Sort a list of documents. -/
def sortDocs (le : Doc → Doc → Bool) : List Doc → List Doc
  | [] => []
  | d :: rest => insSorted le d (sortDocs le rest)

theorem length_insSorted (le : Doc → Doc → Bool) (d : Doc) (l : List Doc) :
    (insSorted le d l).length = l.length + 1 := by
  induction l with
  | nil => rfl
  | cons e rest ih =>
      unfold insSorted
      by_cases h : le d e
      · simp [h]
      · simp [h, ih]

theorem length_sortDocs (le : Doc → Doc → Bool) (l : List Doc) :
    (sortDocs le l).length = l.length := by
  induction l with
  | nil => rfl
  | cons d rest ih =>
      unfold sortDocs
      rw [length_insSorted, ih, List.length_cons]

/-- The result fields of `execute_query` the claims are about. -/
structure QueryResultL where
  total_records : Nat
  matched_records : Nat
  data : List Doc

/-- The per-timeframe filter: `{**mongo_query, "timeframe": timeframe}`. -/
def tfQuery (mq : MDict) (tf : String) : MDict :=
  dictUpdate mq [("timeframe", MVal.val (BVal.str tf))]

/-- One iteration of the timeframe loop: `count_documents(tf_query)` and
the sorted `find(tf_query)` results capped by `cursor.limit(limit)`;
pymongo/MongoDB treat a limit of 0 as "no limit", and `QueryRequest.limit`
has no lower bound, so the 0 case is reachable. -/
def tfStep (store : List Doc) (mq : MDict) (sortField : String)
    (desc : Bool) (limit : Nat) (tf : String) : Nat × List Doc :=
  let q := tfQuery mq tf
  let matchedDocs := store.filter (fun d => evalMDict d q)
  let sorted := sortDocs (sortLe sortField desc) matchedDocs
  (matchedDocs.length, if limit = 0 then sorted else sorted.take limit)

/-- `QueryEngine.execute_query` (lines 24–85): compile the filter, then for
each requested timeframe add the timeframe constraint, total up
`count_documents`, and concatenate the sorted, limit-capped results;
`matched_records` is the length of the concatenation. -/
def executeQuery (parseIso : String → Option Int) (now : Int)
    (store : List Doc) (req : QueryRequestL) : Except String QueryResultL :=
  match buildMongoQuery parseIso now req with
  | .error e => .error e
  | .ok mq =>
      let steps := req.timeframes.map
        (tfStep store mq (mapFieldName req.sortBy) req.sortOrderDesc req.limit)
      let data := (steps.map (·.2)).flatten
      .ok { total_records := (steps.map (·.1)).sum,
            matched_records := data.length,
            data := data }

/-! ## Claims about the query engine (C4, C5, C10) -/

/-- An ISO parser that rejects everything (used to instantiate theorems at
concrete inputs; no date-valued predicate below needs parsing). -/
def noParse : String → Option Int := fun _ => none

/-- A stored kline row with the fields the claims touch. -/
def barDoc (sym tf : String) (ts : Int) (c : Rat) : Doc :=
  [("symbol", BVal.str sym), ("timeframe", BVal.str tf),
   ("timestamp", BVal.time ts), ("close", BVal.num c)]

/-- Two BTC 1h bars, closes 10 and 20. -/
def cexStore : List Doc := [barDoc "BTC" "1h" 0 10, barDoc "BTC" "1h" 3600 20]

/-- A query for BTC 1h bars with `close > 15`. -/
def cexReq : QueryRequestL :=
  { symbol := "BTC", timeframes := ["1h"],
    conditions := Condition.leaf ⟨QueryField.closeF, QueryOperator.gt, PyVal.int 15⟩,
    limit := 100, sortBy := QueryField.timestamp, sortOrderDesc := true }

/-- The spec's words for `total_records` ("unfiltered count per timeframe
summed"): the number of stored bars of the request's symbol and a given
timeframe, before any predicate is applied. -/
def unfilteredCount (store : List Doc) (sym tf : String) : Nat :=
  (store.filter (fun d =>
      docLookup d "symbol" == some (BVal.str sym) &&
      docLookup d "timeframe" == some (BVal.str tf))).length

/-- The spec-side `total_records` of a request. -/
def specTotalRecords (store : List Doc) (req : QueryRequestL) : Nat :=
  (req.timeframes.map (unfilteredCount store req.symbol)).sum

/-- C4 counterexample: on a store holding two BTC 1h bars (closes 10, 20)
and the query `close > 15`, the code returns `total_records = 1` — it
counts with the compiled predicate applied (`count_documents(tf_query)`
where `tf_query` contains the conditions) — while the claim's unfiltered
per-timeframe count is 2. -/
theorem total_records_counterexample :
    executeQuery noParse 0 cexStore cexReq =
      .ok { total_records := 1, matched_records := 1,
            data := [barDoc "BTC" "1h" 3600 20] } ∧
    specTotalRecords cexStore cexReq = 2 := ⟨rfl, rfl⟩

/-- `execute_query` on a compiled filter. -/
theorem executeQuery_ok (p : String → Option Int) (now : Int) (store : List Doc)
    (req : QueryRequestL) (mq : MDict) (hq : buildMongoQuery p now req = .ok mq) :
    executeQuery p now store req =
      .ok { total_records := ((req.timeframes.map
              (tfStep store mq (mapFieldName req.sortBy) req.sortOrderDesc req.limit)).map
                (·.1)).sum,
            matched_records := (((req.timeframes.map
              (tfStep store mq (mapFieldName req.sortBy) req.sortOrderDesc req.limit)).map
                (·.2)).flatten).length,
            data := ((req.timeframes.map
              (tfStep store mq (mapFieldName req.sortBy) req.sortOrderDesc req.limit)).map
                (·.2)).flatten } := by
  unfold executeQuery
  rw [hq]

/-- `execute_query` propagates a compile failure. -/
theorem executeQuery_err (p : String → Option Int) (now : Int) (store : List Doc)
    (req : QueryRequestL) (e : String) (hq : buildMongoQuery p now req = .error e) :
    executeQuery p now store req = .error e := by
  unfold executeQuery
  rw [hq]

/-- C4 amended: on success, `total_records` is the sum over the requested
timeframes of the count of stored bars matching the *compiled* filter
(implicit symbol/timeframe plus the predicate) before sorting and limit,
and `matched_records` is the number of rows actually returned: the
per-timeframe filtered counts capped by the limit when it is positive (a
limit of 0 means no cap, per Mongo), summed. -/
theorem records_accounting (p : String → Option Int) (now : Int)
    (store : List Doc) (req : QueryRequestL) (r : QueryResultL)
    (h : executeQuery p now store req = .ok r) :
    r.matched_records = r.data.length ∧
    ∀ mq, buildMongoQuery p now req = .ok mq →
      r.total_records = (req.timeframes.map (fun tf =>
          (store.filter (fun d => evalMDict d (tfQuery mq tf))).length)).sum ∧
      r.matched_records = (req.timeframes.map (fun tf =>
          if req.limit = 0 then
            (store.filter (fun d => evalMDict d (tfQuery mq tf))).length
          else
            min req.limit
              (store.filter (fun d => evalMDict d (tfQuery mq tf))).length)).sum := by
  cases hq : buildMongoQuery p now req with
  | error e =>
      rw [executeQuery_err p now store req e hq] at h
      exact Except.noConfusion h
  | ok mq0 =>
      rw [executeQuery_ok p now store req mq0 hq] at h
      injection h with h
      subst h
      refine ⟨rfl, ?_⟩
      intro mq hmq
      injection hmq with hmq
      subst hmq
      constructor
      · show ((req.timeframes.map (tfStep store mq0 (mapFieldName req.sortBy)
            req.sortOrderDesc req.limit)).map (·.1)).sum = _
        rw [List.map_map]
        rfl
      · show (((req.timeframes.map (tfStep store mq0 (mapFieldName req.sortBy)
            req.sortOrderDesc req.limit)).map (·.2)).flatten).length = _
        rw [List.length_flatten, List.map_map, List.map_map]
        refine congrArg List.sum (List.map_congr_left ?_)
        intro tf _
        by_cases hl : req.limit = 0
        · show (if req.limit = 0 then
              sortDocs (sortLe (mapFieldName req.sortBy) req.sortOrderDesc)
                (store.filter (fun d => evalMDict d (tfQuery mq0 tf)))
            else
              (sortDocs (sortLe (mapFieldName req.sortBy) req.sortOrderDesc)
                (store.filter (fun d => evalMDict d (tfQuery mq0 tf)))).take req.limit).length = _
          rw [if_pos hl, if_pos hl, length_sortDocs]
        · show (if req.limit = 0 then
              sortDocs (sortLe (mapFieldName req.sortBy) req.sortOrderDesc)
                (store.filter (fun d => evalMDict d (tfQuery mq0 tf)))
            else
              (sortDocs (sortLe (mapFieldName req.sortBy) req.sortOrderDesc)
                (store.filter (fun d => evalMDict d (tfQuery mq0 tf)))).take req.limit).length = _
          rw [if_neg hl, if_neg hl, List.length_take, length_sortDocs]

/-- The counterexample request with `limit = 0` — Mongo's "no limit". -/
def cexReq0 : QueryRequestL := { cexReq with limit := 0 }

/-- Witness for `records_accounting`: the concrete counterexample store and
request (compiled filter: symbol constraint plus `close > 15`), once at
limit 100 for the total and once at limit 0 — where all filtered rows come
back uncapped — for the matched count. -/
theorem records_accounting_witness :
    (QueryResultL.mk 1 1 [barDoc "BTC" "1h" 3600 20]).total_records =
      (cexReq.timeframes.map (fun tf =>
        (cexStore.filter (fun d => evalMDict d
          (tfQuery [("symbol", MVal.val (BVal.str "BTC")),
                    ("close", MVal.ops [MOp.mgt (BVal.num 15)])] tf))).length)).sum ∧
    (QueryResultL.mk 1 1 [barDoc "BTC" "1h" 3600 20]).matched_records =
      (cexReq0.timeframes.map (fun tf =>
        if cexReq0.limit = 0 then
          (cexStore.filter (fun d => evalMDict d
            (tfQuery [("symbol", MVal.val (BVal.str "BTC")),
                      ("close", MVal.ops [MOp.mgt (BVal.num 15)])] tf))).length
        else
          min cexReq0.limit
            (cexStore.filter (fun d => evalMDict d
              (tfQuery [("symbol", MVal.val (BVal.str "BTC")),
                        ("close", MVal.ops [MOp.mgt (BVal.num 15)])] tf))).length)).sum :=
  ⟨((records_accounting noParse 0 cexStore cexReq
      ⟨1, 1, [barDoc "BTC" "1h" 3600 20]⟩ rfl).2
    [("symbol", MVal.val (BVal.str "BTC")),
     ("close", MVal.ops [MOp.mgt (BVal.num 15)])] rfl).1,
   ((records_accounting noParse 0 cexStore cexReq0
      ⟨1, 1, [barDoc "BTC" "1h" 3600 20]⟩ rfl).2
    [("symbol", MVal.val (BVal.str "BTC")),
     ("close", MVal.ops [MOp.mgt (BVal.num 15)])] rfl).2⟩

/-- NOT over children whose compilation keeps two or more non-empty
sub-filters raises the arity `ValueError`. -/
theorem not_multi_children_error (p : String → Option Int) (now : Int)
    (children : List Condition) (q1 q2 : MDict) (qs : List MDict)
    (h : buildSubsList p now children = .ok (q1 :: q2 :: qs)) :
    buildConditionQuery p now (.node .notL children) =
      .error "NOT操作符只能包含一个子条件" := by
  show (match buildSubsList p now children with
        | .error e => .error e
        | .ok [] => .ok []
        | .ok [q] =>
            match LogicalOperator.notL with
            | .andL => .ok q
            | .orL => .ok q
            | .notL => .ok [("$not", MVal.sub q)]
        | .ok qs =>
            match LogicalOperator.notL with
            | .andL => .ok [("$and", MVal.subs qs)]
            | .orL => .ok [("$or", MVal.subs qs)]
            | .notL => .error "NOT操作符只能包含一个子条件") =
      Except.error "NOT操作符只能包含一个子条件"
  rw [h]

/-- `value` is a list of exactly two elements. -/
def isTwoList : PyVal → Bool
  | .list [_, _] => true
  | _ => false

/-- The S6 leaves: `rsi < 30`, `close > ma.ma_50`, `signals contains
"MACD_BULLISH_CROSS"`. -/
def s6leafRsi : Condition :=
  .leaf ⟨QueryField.rsi, QueryOperator.lt, PyVal.int 30⟩

/-- Second S6 leaf. -/
def s6leafClose : Condition :=
  .leaf ⟨QueryField.closeF, QueryOperator.gt, PyVal.str "ma.ma_50"⟩

/-- Third S6 leaf. -/
def s6leafSig : Condition :=
  .leaf ⟨QueryField.signals, QueryOperator.contains, PyVal.str "MACD_BULLISH_CROSS"⟩

/-- The well-formed S6 tree `AND [rsi<30, OR [close>ma.ma_50, signals
contains …]]`. -/
def s6tree : Condition :=
  .node .andL [s6leafRsi, .node .orL [s6leafClose, s6leafSig]]

/-- The S6 variant with NOT over two children. -/
def s6badTree : Condition :=
  .node .notL [s6leafRsi, .node .orL [s6leafClose, s6leafSig]]

/-- C5 counterexample: the claim says a NOT node that does not have exactly
one child is rejected, but a NOT node with zero children is accepted — the
compiler returns the empty filter before the arity check is reached. -/
theorem not_zero_children_accepted :
    buildConditionQuery noParse 0 (Condition.node LogicalOperator.notL []) =
      .ok [] := rfl

/-- C5 amended: a `between` leaf whose value is not a two-element list is
rejected; a NOT node whose children compile to two or more non-empty
sub-filters is rejected (zero children yield the empty filter and are
accepted); `before`/`after` leaves whose value fails ISO-8601 parsing, or
is not a string, are rejected; the S6 tree is accepted and its NOT-of-two
variant is rejected. -/
theorem predicate_validation :
    (∀ (p : String → Option Int) (now : Int) (f : QueryField) (op : QueryOperator)
        (v : PyVal), op = QueryOperator.between → isTwoList v = false →
        buildSingleCondition p now ⟨f, op, v⟩ =
          .error "BETWEEN操作符需要包含两个值的列表") ∧
    (∀ (p : String → Option Int) (now : Int) (children : List Condition)
        (q1 q2 : MDict) (qs : List MDict),
        buildSubsList p now children = .ok (q1 :: q2 :: qs) →
        buildConditionQuery p now (.node .notL children) =
          .error "NOT操作符只能包含一个子条件") ∧
    (∀ (p : String → Option Int) (now : Int) (op : LogicalOperator),
        buildConditionQuery p now (.node op []) = .ok []) ∧
    (∀ (p : String → Option Int) (now : Int) (f : QueryField) (s : String),
        p s = none →
        buildSingleCondition p now ⟨f, QueryOperator.before, .str s⟩ =
          .error "BEFORE操作符需要有效的日期时间格式" ∧
        buildSingleCondition p now ⟨f, QueryOperator.after, .str s⟩ =
          .error "AFTER操作符需要有效的日期时间格式") ∧
    (∀ (p : String → Option Int) (now : Int) (f : QueryField) (n : Int) (q : Rat)
        (l : List PyVal),
        buildSingleCondition p now ⟨f, QueryOperator.before, .int n⟩ =
          .error "BEFORE操作符需要日期时间字符串" ∧
        buildSingleCondition p now ⟨f, QueryOperator.before, .float q⟩ =
          .error "BEFORE操作符需要日期时间字符串" ∧
        buildSingleCondition p now ⟨f, QueryOperator.before, .list l⟩ =
          .error "BEFORE操作符需要日期时间字符串") ∧
    ((buildConditionQuery noParse 0 s6tree).isOk = true ∧
     buildConditionQuery noParse 0 s6badTree =
       .error "NOT操作符只能包含一个子条件") := by
  refine ⟨?_, ?_, ?_, ?_, ?_, ?_, ?_⟩
  · intro p now f op v hop hv
    subst hop
    match v, hv with
    | .int _, _ => rfl
    | .float _, _ => rfl
    | .str _, _ => rfl
    | .list [], _ => rfl
    | .list [_], _ => rfl
    | .list (_ :: _ :: _ :: _), _ => rfl
    | .list [_, _], hv => exact absurd hv (by simp [isTwoList])
  · exact not_multi_children_error
  · intro p now op
    rfl
  · intro p now f s hp
    constructor
    · show (match p s with
            | some t => Except.ok [("timestamp", MVal.ops [MOp.mlt (BVal.time t)])]
            | none => .error "BEFORE操作符需要有效的日期时间格式") =
        Except.error "BEFORE操作符需要有效的日期时间格式"
      rw [hp]
    · show (match p s with
            | some t => Except.ok [("timestamp", MVal.ops [MOp.mgt (BVal.time t)])]
            | none => .error "AFTER操作符需要有效的日期时间格式") =
        Except.error "AFTER操作符需要有效的日期时间格式"
      rw [hp]
  · intro p now f n q l
    exact ⟨rfl, rfl, rfl⟩
  · rfl
  · rfl

/-- Witness for `predicate_validation` at concrete inputs: `between` over
the scalar 5 is rejected, NOT over the two S6 leaves is rejected, NOT over
no children is accepted, and `before "garbage"` is rejected under a parser
that fails on it. -/
theorem predicate_validation_witness :
    buildSingleCondition noParse 0 ⟨QueryField.rsi, QueryOperator.between, PyVal.int 5⟩ =
      .error "BETWEEN操作符需要包含两个值的列表" ∧
    buildConditionQuery noParse 0 (.node .notL [s6leafRsi, s6leafSig]) =
      .error "NOT操作符只能包含一个子条件" ∧
    buildConditionQuery noParse 0 (.node .orL []) = .ok [] ∧
    buildSingleCondition noParse 0 ⟨QueryField.timestamp, QueryOperator.before, .str "garbage"⟩ =
      .error "BEFORE操作符需要有效的日期时间格式" :=
  ⟨predicate_validation.1 noParse 0 QueryField.rsi QueryOperator.between (PyVal.int 5) rfl rfl,
   predicate_validation.2.1 noParse 0 [s6leafRsi, s6leafSig]
     [("rsi", MVal.ops [MOp.mlt (BVal.num 30)])]
     [("signals", MVal.ops [MOp.minOp (BVal.arr [BVal.str "MACD_BULLISH_CROSS"])])] [] rfl,
   predicate_validation.2.2.1 noParse 0 LogicalOperator.orL,
   (predicate_validation.2.2.2.1 noParse 0 QueryField.timestamp "garbage" rfl).1⟩

/-- When every child compiles to the empty filter, the child loop keeps
nothing. -/
theorem buildSubsList_all_empty (p : String → Option Int) (now : Int) :
    ∀ children : List Condition,
      (∀ c ∈ children, buildConditionQuery p now c = .ok []) →
      buildSubsList p now children = .ok [] := by
  intro children h
  induction children with
  | nil => rfl
  | cons c rest ih =>
      have hc : buildConditionQuery p now c = .ok [] := h c (by simp)
      have hr : buildSubsList p now rest = .ok [] :=
        ih (fun x hx => h x (by simp [hx]))
      show (match buildConditionQuery p now c with
            | .error e => .error e
            | .ok q =>
                match buildSubsList p now rest with
                | .error e => .error e
                | .ok qs => .ok (if q.isEmpty then qs else q :: qs)) =
        Except.ok ([] : List MDict)
      rw [hc, hr]
      rfl

/-- C10: a logical node whose children list is empty — or whose children
all compile to the empty constraint — compiles to the empty filter with no
error; such a request is accepted by `execute_query` and its per-timeframe
filter keeps only the implicit symbol/timeframe constraints, so a stored
bar satisfies it iff its symbol and timeframe equal the requested ones;
and only a NOT node whose children compile to two or more non-empty
sub-filters raises. -/
theorem empty_filter_semantics :
    (∀ (p : String → Option Int) (now : Int) (op : LogicalOperator),
        buildConditionQuery p now (.node op []) = .ok []) ∧
    (∀ (p : String → Option Int) (now : Int) (op : LogicalOperator)
        (children : List Condition),
        (∀ c ∈ children, buildConditionQuery p now c = .ok []) →
        buildConditionQuery p now (.node op children) = .ok []) ∧
    (∀ (p : String → Option Int) (now : Int) (store : List Doc) (sym : String)
        (tfs : List String) (lim : Nat) (sb : QueryField) (so : Bool)
        (op : LogicalOperator),
        buildMongoQuery p now ⟨sym, tfs, .node op [], lim, sb, so⟩ =
          .ok [("symbol", MVal.val (BVal.str sym))] ∧
        (executeQuery p now store ⟨sym, tfs, .node op [], lim, sb, so⟩).isOk = true) ∧
    (∀ (d : Doc) (sym tf s2 t2 : String),
        docLookup d "symbol" = some (BVal.str s2) →
        docLookup d "timeframe" = some (BVal.str t2) →
        evalMDict d (tfQuery [("symbol", MVal.val (BVal.str sym))] tf) =
          (s2 == sym && t2 == tf)) ∧
    (∀ (p : String → Option Int) (now : Int) (children : List Condition)
        (q1 q2 : MDict) (qs : List MDict),
        buildSubsList p now children = .ok (q1 :: q2 :: qs) →
        buildConditionQuery p now (.node .notL children) =
          .error "NOT操作符只能包含一个子条件") := by
  refine ⟨?_, ?_, ?_, ?_, ?_⟩
  · intro p now op
    rfl
  · intro p now op children h
    have hs := buildSubsList_all_empty p now children h
    show (match buildSubsList p now children with
          | .error e => .error e
          | .ok [] => .ok []
          | .ok [q] =>
              match op with
              | .andL => .ok q
              | .orL => .ok q
              | .notL => .ok [("$not", MVal.sub q)]
          | .ok qs =>
              match op with
              | .andL => .ok [("$and", MVal.subs qs)]
              | .orL => .ok [("$or", MVal.subs qs)]
              | .notL => .error "NOT操作符只能包含一个子条件") =
      Except.ok ([] : MDict)
    rw [hs]
  · intro p now store sym tfs lim sb so op
    exact ⟨rfl, rfl⟩
  · intro d sym tf s2 t2 h1 h2
    show (matchValue (docLookup d "symbol") (BVal.str sym) &&
          (matchValue (docLookup d "timeframe") (BVal.str tf) && true)) = _
    rw [h1, h2]
    show (((s2 == sym) || false) && (((t2 == tf) || false) && true)) = _
    simp
  · exact not_multi_children_error

/-- Witness for `empty_filter_semantics`: an AND node whose only child is
an empty OR node compiles to the empty filter, and a stored ETH bar fails
the BTC filter while matching its own symbol. -/
theorem empty_filter_semantics_witness :
    buildConditionQuery noParse 0
      (Condition.node LogicalOperator.andL [Condition.node LogicalOperator.orL []]) =
      .ok [] ∧
    evalMDict (barDoc "ETH" "1h" 0 10)
      (tfQuery [("symbol", MVal.val (BVal.str "BTC"))] "1h") =
      ("ETH" == "BTC" && "1h" == "1h") :=
  ⟨empty_filter_semantics.2.1 noParse 0 LogicalOperator.andL
     [Condition.node LogicalOperator.orL []]
     (fun c hc => by
        have hceq : c = Condition.node LogicalOperator.orL [] := by simpa using hc
        subst hceq
        exact empty_filter_semantics.1 noParse 0 LogicalOperator.orL),
   empty_filter_semantics.2.2.2.1 (barDoc "ETH" "1h" 0 10) "BTC" "1h" "ETH" "1h" rfl rfl⟩

/-! ## Candle-store upsert (`mongo_client.py` lines 87–124) and the
incremental ingestion step (`ccxt_collector.py` lines 240–250) -/

/-- Lookup in an association list with Python-dict semantics (first hit;
keys are unique in every dict the code builds). -/
def dictGet {α : Type} (d : List (String × α)) (k : String) : Option α :=
  (d.find? (fun p => p.1 == k)).map (·.2)

/-- Entries whose key differs from `k` are untouched by the in-place
replacement `dict[k] = v` performs, as seen by a lookup of `k'` ≠ `k`. -/
theorem find_map_replace {α : Type} (k k' : String) (v : α)
    (hk2 : (k == k') = false) :
    ∀ rest : List (String × α),
      (rest.map (fun p => if p.1 == k then (k, v) else p)).find?
          (fun p => p.1 == k') =
        rest.find? (fun p => p.1 == k') := by
  intro rest
  induction rest with
  | nil => rfl
  | cons e rest ih =>
      by_cases he : (e.1 == k) = true
      · have he1 : e.1 = k := by simpa using he
        have hxe : (e.1 == k') = false := by rw [he1]; exact hk2
        show ((if (e.1 == k) = true then (k, v) else e) ::
            rest.map (fun p => if p.1 == k then (k, v) else p)).find?
              (fun p => p.1 == k') = _
        rw [if_pos he, List.find?_cons_of_neg _ (by simp [hk2]),
            List.find?_cons_of_neg _ (by simp [hxe])]
        exact ih
      · show ((if (e.1 == k) = true then (k, v) else e) ::
            rest.map (fun p => if p.1 == k then (k, v) else p)).find?
              (fun p => p.1 == k') = _
        rw [if_neg he]
        by_cases hek : (e.1 == k') = true
        · rw [List.find?_cons_of_pos _ (by simp [hek]),
              List.find?_cons_of_pos _ (by simp [hek])]
        · rw [List.find?_cons_of_neg _ (by simp [hek]),
              List.find?_cons_of_neg _ (by simp [hek])]
          exact ih

/-- Appending a `(k, v)` entry is invisible to a lookup of `k'` ≠ `k`. -/
theorem find_append_single {α : Type} (k k' : String) (v : α)
    (hk2 : (k == k') = false) :
    ∀ rest : List (String × α),
      (rest ++ [(k, v)]).find? (fun p => p.1 == k') =
        rest.find? (fun p => p.1 == k') := by
  intro rest
  induction rest with
  | nil =>
      show ([(k, v)] : List (String × α)).find? (fun p => p.1 == k') = none
      rw [List.find?_cons_of_neg _ (by simp [hk2])]
      rfl
  | cons e rest ih =>
      by_cases hek : (e.1 == k') = true
      · rw [List.cons_append, List.find?_cons_of_pos _ (by simp [hek]),
            List.find?_cons_of_pos _ (by simp [hek])]
      · rw [List.cons_append, List.find?_cons_of_neg _ (by simp [hek]),
            List.find?_cons_of_neg _ (by simp [hek])]
        exact ih

theorem dictGet_insert_self {α : Type} (k : String) (v : α) :
    ∀ d : List (String × α), dictGet (dictInsert d k v) k = some v := by
  intro d
  induction d with
  | nil =>
      have h0 : dictInsert ([] : List (String × α)) k v = [(k, v)] := rfl
      rw [h0]
      unfold dictGet
      rw [List.find?_cons_of_pos _ (by simp)]
      rfl
  | cons e rest ih =>
      by_cases he : (e.1 == k) = true
      · have h1 : dictInsert (e :: rest) k v =
            (k, v) :: rest.map (fun p => if p.1 == k then (k, v) else p) := by
          unfold dictInsert
          rw [if_pos (show ((e :: rest).any (fun p => p.1 == k)) = true by
                simp [List.any_cons, he])]
          show (if (e.1 == k) = true then (k, v) else e) :: _ = _
          rw [if_pos he]
        rw [h1]
        unfold dictGet
        rw [List.find?_cons_of_pos _ (by simp)]
        rfl
      · by_cases hr : (rest.any (fun p => p.1 == k)) = true
        · have h1 : dictInsert (e :: rest) k v =
              e :: rest.map (fun p => if p.1 == k then (k, v) else p) := by
            unfold dictInsert
            rw [if_pos (show ((e :: rest).any (fun p => p.1 == k)) = true by
                  simp [List.any_cons, hr])]
            show (if (e.1 == k) = true then (k, v) else e) :: _ = _
            rw [if_neg he]
          have h2 : dictInsert rest k v =
              rest.map (fun p => if p.1 == k then (k, v) else p) := by
            unfold dictInsert
            rw [if_pos hr]
          rw [h1]
          unfold dictGet
          rw [List.find?_cons_of_neg _ (by simp [he])]
          rw [h2] at ih
          exact ih
        · have h1 : dictInsert (e :: rest) k v = e :: (rest ++ [(k, v)]) := by
            unfold dictInsert
            rw [if_neg (show ¬ ((e :: rest).any (fun p => p.1 == k)) = true by
                  simp [List.any_cons, he, hr])]
            rfl
          have h2 : dictInsert rest k v = rest ++ [(k, v)] := by
            unfold dictInsert
            rw [if_neg (by simp [hr])]
          rw [h1]
          unfold dictGet
          rw [List.find?_cons_of_neg _ (by simp [he])]
          rw [h2] at ih
          exact ih

theorem dictGet_insert_ne {α : Type} (k k' : String) (v : α)
    (hk : (k' == k) = false) :
    ∀ d : List (String × α), dictGet (dictInsert d k v) k' = dictGet d k' := by
  have hne : k' ≠ k := by simpa using hk
  have hk2 : (k == k') = false := beq_eq_false_iff_ne.mpr (Ne.symm hne)
  intro d
  induction d with
  | nil =>
      have h0 : dictInsert ([] : List (String × α)) k v = [(k, v)] := rfl
      rw [h0]
      unfold dictGet
      rw [List.find?_cons_of_neg _ (by simp [hk2])]
  | cons e rest ih =>
      by_cases he : (e.1 == k) = true
      · have he1 : e.1 = k := by simpa using he
        have hxe : (e.1 == k') = false := by rw [he1]; exact hk2
        have h1 : dictInsert (e :: rest) k v =
            (k, v) :: rest.map (fun p => if p.1 == k then (k, v) else p) := by
          unfold dictInsert
          rw [if_pos (show ((e :: rest).any (fun p => p.1 == k)) = true by
                simp [List.any_cons, he])]
          show (if (e.1 == k) = true then (k, v) else e) :: _ = _
          rw [if_pos he]
        rw [h1]
        unfold dictGet
        rw [List.find?_cons_of_neg _ (by simp [hk2]),
            List.find?_cons_of_neg _ (by simp [hxe]),
            find_map_replace k k' v hk2 rest]
      · by_cases hr : (rest.any (fun p => p.1 == k)) = true
        · have h1 : dictInsert (e :: rest) k v =
              e :: rest.map (fun p => if p.1 == k then (k, v) else p) := by
            unfold dictInsert
            rw [if_pos (show ((e :: rest).any (fun p => p.1 == k)) = true by
                  simp [List.any_cons, hr])]
            show (if (e.1 == k) = true then (k, v) else e) :: _ = _
            rw [if_neg he]
          rw [h1]
          unfold dictGet
          by_cases hek : (e.1 == k') = true
          · rw [List.find?_cons_of_pos _ (by simp [hek]),
                List.find?_cons_of_pos _ (by simp [hek])]
          · rw [List.find?_cons_of_neg _ (by simp [hek]),
                List.find?_cons_of_neg _ (by simp [hek]),
                find_map_replace k k' v hk2 rest]
        · have h1 : dictInsert (e :: rest) k v = e :: (rest ++ [(k, v)]) := by
            unfold dictInsert
            rw [if_neg (show ¬ ((e :: rest).any (fun p => p.1 == k)) = true by
                  simp [List.any_cons, he, hr])]
            rfl
          rw [h1]
          unfold dictGet
          by_cases hek : (e.1 == k') = true
          · rw [List.find?_cons_of_pos _ (by simp [hek]),
                List.find?_cons_of_pos _ (by simp [hek])]
          · rw [List.find?_cons_of_neg _ (by simp [hek]),
                List.find?_cons_of_neg _ (by simp [hek]),
                find_append_single k k' v hk2 rest]

/-- A fetched candle as built by `process_kline_data`. -/
structure Kline where
  symbol : String
  timeframe : String
  timestamp : Int
  openP : Rat
  highP : Rat
  lowP : Rat
  closeP : Rat
  volume : Rat

/-- The `kline_data` dictionary handed to the upsert, after `insert_kline`
adds `created_at` and `updated_at`: the natural key, OHLCV, and the
indicator fields initialized empty (`process_kline_data`). -/
def klineFields (now : Int) (k : Kline) : Doc :=
  [("symbol", BVal.str k.symbol), ("timeframe", BVal.str k.timeframe),
   ("timestamp", BVal.time k.timestamp),
   ("open", BVal.num k.openP), ("high", BVal.num k.highP),
   ("low", BVal.num k.lowP), ("close", BVal.num k.closeP),
   ("volume", BVal.num k.volume),
   ("ma", BVal.obj []), ("rsi", BVal.nullv), ("macd", BVal.obj []),
   ("stochastic", BVal.obj []), ("bollinger", BVal.obj []),
   ("cci", BVal.nullv), ("skdj", BVal.obj []), ("kdj", BVal.obj []),
   ("signals", BVal.arr []),
   ("created_at", BVal.time now), ("updated_at", BVal.time now)]

/-- The natural-key query `{symbol, timeframe, timestamp}` evaluated
against a stored row. -/
def keyMatches (sym tf : String) (ts : Int) (d : Doc) : Bool :=
  matchValue (dictGet d "symbol") (BVal.str sym) &&
  matchValue (dictGet d "timeframe") (BVal.str tf) &&
  matchValue (dictGet d "timestamp") (BVal.time ts)

/-- `MongoDBClient.kline_exists` (lines 297–324):
`count_documents(key) > 0`. -/
def kline_exists (store : List Doc) (sym tf : String) (ts : Int) : Bool :=
  store.any (keyMatches sym tf ts)

/-- `update_one`: apply `f` to the first row matching `p`. -/
def updateFirst (p : Doc → Bool) (f : Doc → Doc) : List Doc → List Doc
  | [] => []
  | d :: rest => if p d then f d :: rest else d :: updateFirst p f rest

/-- `MongoDBClient.insert_kline` (lines 87–124): upsert on the natural key —
`$set` all candle fields on the first matching row, or insert a new row
when none matches. -/
def insert_kline (now : Int) (store : List Doc) (k : Kline) : List Doc :=
  let setDoc := klineFields now k
  if kline_exists store k.symbol k.timeframe k.timestamp then
    updateFirst (keyMatches k.symbol k.timeframe k.timestamp)
      (fun d => dictUpdate d setDoc) store
  else
    store ++ [setDoc]

/-- One bar of `CCXTDataCollector.collect_latest_data` (lines 240–250): a
fetched bar whose key already exists is skipped entirely; otherwise it is
inserted. -/
def collectStep (now : Int) (store : List Doc) (k : Kline) : List Doc :=
  if kline_exists store k.symbol k.timeframe k.timestamp then store
  else insert_kline now store k

theorem length_updateFirst (p : Doc → Bool) (f : Doc → Doc) (l : List Doc) :
    (updateFirst p f l).length = l.length := by
  induction l with
  | nil => rfl
  | cons d rest ih =>
      unfold updateFirst
      by_cases h : p d
      · simp [h]
      · simp [h, ih]

/-- The key fields of a row survive a `$set` of the candle fields. -/
theorem keyMatches_dictUpdate (now : Int) (k : Kline) (d : Doc) :
    keyMatches k.symbol k.timeframe k.timestamp (dictUpdate d (klineFields now k)) = true := by
  have hs : dictGet (dictUpdate d (klineFields now k)) "symbol" =
      some (BVal.str k.symbol) := by
    simp [klineFields, dictUpdate, dictGet_insert_self, dictGet_insert_ne]
  have ht : dictGet (dictUpdate d (klineFields now k)) "timeframe" =
      some (BVal.str k.timeframe) := by
    simp [klineFields, dictUpdate, dictGet_insert_self, dictGet_insert_ne]
  have hts : dictGet (dictUpdate d (klineFields now k)) "timestamp" =
      some (BVal.time k.timestamp) := by
    simp [klineFields, dictUpdate, dictGet_insert_self, dictGet_insert_ne]
  unfold keyMatches
  rw [hs, ht, hts]
  show ((((k.symbol == k.symbol) || false) &&
         ((k.timeframe == k.timeframe) || false)) &&
        ((k.timestamp == k.timestamp) || false)) = true
  simp

/-- A freshly built candle row matches its own key. -/
theorem keyMatches_klineFields (now : Int) (k : Kline) :
    keyMatches k.symbol k.timeframe k.timestamp (klineFields now k) = true := by
  unfold keyMatches
  show ((((k.symbol == k.symbol) || false) &&
         ((k.timeframe == k.timeframe) || false)) &&
        ((k.timestamp == k.timestamp) || false)) = true
  simp

/-- `update_one` on a matching row keeps a matching row, provided the
update preserves the match. -/
theorem any_updateFirst (km : Doc → Bool) (f : Doc → Doc)
    (hf : ∀ d, km (f d) = true) :
    ∀ store : List Doc, store.any km = true →
      (updateFirst km f store).any km = true := by
  intro store
  induction store with
  | nil => intro h; simp at h
  | cons d rest ih =>
      intro h
      unfold updateFirst
      by_cases hd : km d = true
      · rw [if_pos hd]
        simp [List.any_cons, hf d]
      · rw [if_neg hd]
        have hr : rest.any km = true := by
          simpa [List.any_cons, hd] using h
        simp [List.any_cons, ih hr]

/-- After an upsert the key is present. -/
theorem kline_exists_insert (now : Int) (store : List Doc) (k : Kline) :
    kline_exists (insert_kline now store k) k.symbol k.timeframe k.timestamp = true := by
  unfold insert_kline
  cases hx : kline_exists store k.symbol k.timeframe k.timestamp with
  | false =>
      show kline_exists (store ++ [klineFields now k])
        k.symbol k.timeframe k.timestamp = true
      unfold kline_exists
      rw [List.any_append]
      simp [keyMatches_klineFields]
  | true =>
      show kline_exists
        (updateFirst (keyMatches k.symbol k.timeframe k.timestamp)
          (fun d => dictUpdate d (klineFields now k)) store)
        k.symbol k.timeframe k.timestamp = true
      exact any_updateFirst _ _ (fun d => keyMatches_dictUpdate now k d) store hx

/-- C6: upserting a candle whose natural key already exists leaves the row
count unchanged (and consequently upserting the same candle twice leaves
the count of the second upsert unchanged), a fresh key adds exactly one
row, and the incremental tick skips an already-present bar entirely,
leaving the store untouched. -/
theorem upsert_idempotent :
    (∀ (now : Int) (store : List Doc) (k : Kline),
        kline_exists store k.symbol k.timeframe k.timestamp = true →
        (insert_kline now store k).length = store.length) ∧
    (∀ (now : Int) (store : List Doc) (k : Kline),
        kline_exists store k.symbol k.timeframe k.timestamp = false →
        (insert_kline now store k).length = store.length + 1) ∧
    (∀ (now now2 : Int) (store : List Doc) (k : Kline),
        (insert_kline now2 (insert_kline now store k) k).length =
          (insert_kline now store k).length) ∧
    (∀ (now : Int) (store : List Doc) (k : Kline),
        kline_exists store k.symbol k.timeframe k.timestamp = true →
        collectStep now store k = store) := by
  have hlen : ∀ (now : Int) (store : List Doc) (k : Kline),
      kline_exists store k.symbol k.timeframe k.timestamp = true →
      (insert_kline now store k).length = store.length := by
    intro now store k h
    unfold insert_kline
    rw [h]
    simp [length_updateFirst]
  refine ⟨hlen, ?_, ?_, ?_⟩
  · intro now store k h
    unfold insert_kline
    rw [h]
    simp
  · intro now now2 store k
    exact hlen now2 (insert_kline now store k) k (kline_exists_insert now store k)
  · intro now store k h
    unfold collectStep
    rw [h]
    simp

/-- Witness for `upsert_idempotent`: a one-row store holding the BTC 1h
bar at t = 0; re-upserting it keeps one row, the tick skips it, and a
fresh ETH bar appends. -/
theorem upsert_idempotent_witness :
    (insert_kline 5 [klineFields 0 ⟨"BTC", "1h", 0, 1, 2, 3, 4, 5⟩]
        ⟨"BTC", "1h", 0, 1, 2, 3, 4, 5⟩).length = 1 ∧
    collectStep 5 [klineFields 0 ⟨"BTC", "1h", 0, 1, 2, 3, 4, 5⟩]
        ⟨"BTC", "1h", 0, 1, 2, 3, 4, 5⟩ = [klineFields 0 ⟨"BTC", "1h", 0, 1, 2, 3, 4, 5⟩] ∧
    (insert_kline 5 [klineFields 0 ⟨"BTC", "1h", 0, 1, 2, 3, 4, 5⟩]
        ⟨"ETH", "1h", 0, 1, 2, 3, 4, 5⟩).length = 2 :=
  ⟨upsert_idempotent.1 5 [klineFields 0 ⟨"BTC", "1h", 0, 1, 2, 3, 4, 5⟩]
      ⟨"BTC", "1h", 0, 1, 2, 3, 4, 5⟩ (by decide),
   upsert_idempotent.2.2.2 5 [klineFields 0 ⟨"BTC", "1h", 0, 1, 2, 3, 4, 5⟩]
      ⟨"BTC", "1h", 0, 1, 2, 3, 4, 5⟩ (by decide),
   upsert_idempotent.2.1 5 [klineFields 0 ⟨"BTC", "1h", 0, 1, 2, 3, 4, 5⟩]
      ⟨"ETH", "1h", 0, 1, 2, 3, 4, 5⟩ (by decide)⟩

/-! ## KDJ (`TechnicalIndicatorCalculator.calculate_kdj`, `calculator.py`
lines 229–274)

The RSV series is the 9-bar rolling stochastic of the chronologically
ordered window; pandas produces NaN for the first 8 bars, embedded here as
`none`.  The claims are about the K/D/J loops that consume it. -/

/-- The body of the K loop: `if not np.isnan(rsv_val): k = (2/3)*k +
(1/3)*rsv_val` — a NaN RSV leaves K unchanged. -/
def kstep (k : Rat) : Option Rat → Rat
  | some v => (2/3) * k + (1/3) * v
  | none => k

/-- The K loop (lines 245–251): every iteration appends the current K. -/
def kValuesAux (k : Rat) : List (Option Rat) → List Rat
  | [] => []
  | r :: rest => kstep k r :: kValuesAux (kstep k r) rest

/-- `k_values` with the seed `k = 50`. -/
def kValues (rsv : List (Option Rat)) : List Rat := kValuesAux 50 rsv

/-- The body of the D loop: `d = (2/3)*d + (1/3)*k_val`, on every bar. -/
def dstep (d kv : Rat) : Rat := (2/3) * d + (1/3) * kv

/-- The D loop (lines 253–258) with its seed `d = 50`. -/
def dValuesAux (d : Rat) : List Rat → List Rat
  | [] => []
  | kv :: rest => dstep d kv :: dValuesAux (dstep d kv) rest

/-- `d_values` with the seed `d = 50`. -/
def dValues (ks : List Rat) : List Rat := dValuesAux 50 ks

/-- `j_values = [3k − 2d for k, d in zip(k_values, d_values)]`. -/
def jValues (ks ds : List Rat) : List Rat :=
  List.zipWith (fun kv dv => 3 * kv - 2 * dv) ks ds

/-- `calculate_kdj` on the RSV series: the reported `k`, `d`, `j` are the
last elements of the three series (`None` on an empty window). -/
def calculate_kdj (rsv : List (Option Rat)) :
    Option Rat × Option Rat × Option Rat :=
  let ks := kValues rsv
  let ds := dValues ks
  let js := jValues ks ds
  (ks.getLast?, ds.getLast?, js.getLast?)

theorem length_kValuesAux (k0 : Rat) :
    ∀ rsv : List (Option Rat), (kValuesAux k0 rsv).length = rsv.length := by
  intro rsv
  induction rsv generalizing k0 with
  | nil => rfl
  | cons r rest ih => simp [kValuesAux, ih]

theorem length_dValuesAux (d0 : Rat) :
    ∀ ks : List Rat, (dValuesAux d0 ks).length = ks.length := by
  intro ks
  induction ks generalizing d0 with
  | nil => rfl
  | cons kv rest ih => simp [dValuesAux, ih]

/-- The K list satisfies the claimed recurrence with seed `k0`. -/
theorem kValuesAux_getD (rsv : List (Option Rat)) :
    ∀ (k0 : Rat) (i : Nat), i < rsv.length →
      (kValuesAux k0 rsv).getD i 0 =
        kstep (if i = 0 then k0 else (kValuesAux k0 rsv).getD (i - 1) 0)
          (rsv.getD i none) := by
  induction rsv with
  | nil => intro k0 i hi; simp at hi
  | cons r rest ih =>
      intro k0 i hi
      cases i with
      | zero => simp [kValuesAux]
      | succ n =>
          have hn : n < rest.length := by simpa using hi
          have hrec := ih (kstep k0 r) n hn
          cases n with
          | zero =>
              simpa [kValuesAux, List.getD_cons_succ, List.getD_cons_zero]
                using hrec
          | succ m =>
              simpa [kValuesAux, List.getD_cons_succ] using hrec

/-- The D list satisfies the claimed recurrence with seed `d0`, on every
bar. -/
theorem dValuesAux_getD (ks : List Rat) :
    ∀ (d0 : Rat) (i : Nat), i < ks.length →
      (dValuesAux d0 ks).getD i 0 =
        dstep (if i = 0 then d0 else (dValuesAux d0 ks).getD (i - 1) 0)
          (ks.getD i 0) := by
  induction ks with
  | nil => intro d0 i hi; simp at hi
  | cons kv rest ih =>
      intro d0 i hi
      cases i with
      | zero => simp [dValuesAux]
      | succ n =>
          have hn : n < rest.length := by simpa using hi
          have hrec := ih (dstep d0 kv) n hn
          cases n with
          | zero =>
              simpa [dValuesAux, List.getD_cons_succ, List.getD_cons_zero]
                using hrec
          | succ m =>
              simpa [dValuesAux, List.getD_cons_succ] using hrec

/-- The last element of `zipWith f` over equal-length non-empty lists. -/
theorem getLast?_zipWith (f : Rat → Rat → Rat) :
    ∀ (l1 l2 : List Rat), l1.length = l2.length →
      ∀ (a b : Rat), l1.getLast? = some a → l2.getLast? = some b →
      (List.zipWith f l1 l2).getLast? = some (f a b) := by
  intro l1
  induction l1 with
  | nil => intro l2 hlen a b ha hb; simp at ha
  | cons x l1 ih =>
      intro l2 hlen a b ha hb
      cases l2 with
      | nil => simp at hlen
      | cons y l2 =>
          cases l1 with
          | nil =>
              cases l2 with
              | nil =>
                  simp at ha hb
                  subst ha
                  subst hb
                  rfl
              | cons z l2 => simp at hlen
          | cons x2 l1 =>
              cases l2 with
              | nil => simp at hlen
              | cons y2 l2 =>
                  have hlen2 : (x2 :: l1).length = (y2 :: l2).length := by
                    simpa using hlen
                  have ha2 : (x2 :: l1).getLast? = some a := by
                    simpa [List.getLast?_cons_cons] using ha
                  have hb2 : (y2 :: l2).getLast? = some b := by
                    simpa [List.getLast?_cons_cons] using hb
                  have := ih (y2 :: l2) hlen2 a b ha2 hb2
                  show (f x y :: f x2 y2 :: List.zipWith f l1 l2).getLast? =
                    some (f a b)
                  rw [List.getLast?_cons_cons]
                  exact this

/-- A non-empty list of rationals has a last element. -/
theorem getLast?_isSome_of_ne_nil (l : List Rat) (h : l ≠ []) :
    ∃ a, l.getLast? = some a := by
  cases hl : l.getLast? with
  | none => exact absurd (List.getLast?_eq_none_iff.mp hl) h
  | some a => exact ⟨a, rfl⟩

/-- C7: over the chronologically ordered window, K satisfies
`K_t = (2/3)·K_{t−1} + (1/3)·RSV_t` with the update skipped on NaN RSV
bars, D satisfies `D_t = (2/3)·D_{t−1} + (1/3)·K_t` on every bar, both are
seeded at 50 before the first valid RSV, and the reported J of the most
recent bar is `3K − 2D` of the reported K and D. -/
theorem kdj_recurrence :
    (∀ rsv : List (Option Rat), (kValues rsv).length = rsv.length ∧
        (dValues (kValues rsv)).length = rsv.length) ∧
    (∀ (rsv : List (Option Rat)) (i : Nat), i < rsv.length →
        (kValues rsv).getD i 0 =
          match rsv.getD i none with
          | some v => (2/3) * (if i = 0 then 50 else (kValues rsv).getD (i - 1) 0) +
              (1/3) * v
          | none => if i = 0 then 50 else (kValues rsv).getD (i - 1) 0) ∧
    (∀ (ks : List Rat) (i : Nat), i < ks.length →
        (dValues ks).getD i 0 =
          (2/3) * (if i = 0 then 50 else (dValues ks).getD (i - 1) 0) +
            (1/3) * ks.getD i 0) ∧
    (∀ rsv : List (Option Rat), rsv ≠ [] →
        ∃ k d, calculate_kdj rsv = (some k, some d, some (3 * k - 2 * d)) ∧
          (kValues rsv).getLast? = some k ∧
          (dValues (kValues rsv)).getLast? = some d) := by
  refine ⟨?_, ?_, ?_, ?_⟩
  · intro rsv
    constructor
    · exact length_kValuesAux 50 rsv
    · show (dValuesAux 50 (kValues rsv)).length = rsv.length
      rw [length_dValuesAux 50 (kValues rsv)]
      exact length_kValuesAux 50 rsv
  · intro rsv i hi
    have := kValuesAux_getD rsv 50 i hi
    unfold kValues
    rw [this]
    cases rsv.getD i none <;> simp [kstep]
  · intro ks i hi
    have := dValuesAux_getD ks 50 i hi
    unfold dValues
    rw [this]
    simp [dstep]
  · intro rsv hne
    have hklen : (kValues rsv).length = rsv.length := length_kValuesAux 50 rsv
    have hkne : kValues rsv ≠ [] := by
      intro hcon
      apply hne
      have := congrArg List.length hcon
      rw [hklen] at this
      exact List.length_eq_zero.mp (by simpa using this)
    have hdlen : (dValues (kValues rsv)).length = (kValues rsv).length :=
      length_dValuesAux 50 (kValues rsv)
    have hdne : dValues (kValues rsv) ≠ [] := by
      intro hcon
      apply hkne
      have := congrArg List.length hcon
      rw [hdlen] at this
      exact List.length_eq_zero.mp (by simpa using this)
    obtain ⟨k, hk⟩ := getLast?_isSome_of_ne_nil _ hkne
    obtain ⟨d, hd⟩ := getLast?_isSome_of_ne_nil _ hdne
    refine ⟨k, d, ?_, hk, hd⟩
    have hj := getLast?_zipWith (fun kv dv => 3 * kv - 2 * dv)
      (kValues rsv) (dValues (kValues rsv)) hdlen.symm k d hk hd
    show ((kValues rsv).getLast?, (dValues (kValues rsv)).getLast?,
      (jValues (kValues rsv) (dValues (kValues rsv))).getLast?) =
      (some k, some d, some (3 * k - 2 * d))
    unfold jValues
    rw [hk, hd, hj]

/-- Witness for `kdj_recurrence` on the window `[NaN, 100]`: K stays at the
50 seed on the NaN bar, then moves to `(2/3)·50 + (1/3)·100 = 200/3`, and
the reported J is `3K − 2D` of the reported pair. -/
theorem kdj_recurrence_witness :
    (kValues [none, some 100]).getD 1 0 =
      (2/3) * (kValues [none, some 100]).getD 0 0 + (1/3) * 100 ∧
    (dValues [50, 60]).getD 0 0 = (2/3) * 50 + (1/3) * 50 ∧
    ∃ k d, calculate_kdj [none, some 100] = (some k, some d, some (3 * k - 2 * d)) ∧
      (kValues [none, some 100]).getLast? = some k ∧
      (dValues (kValues [none, some 100])).getLast? = some d :=
  ⟨kdj_recurrence.2.1 [none, some 100] 1 (by decide),
   by
     have := kdj_recurrence.2.2.1 [50, 60] 0 (by decide)
     simpa using this,
   kdj_recurrence.2.2.2 [none, some 100] (by decide)⟩

/-! ## Signal detection (`signals.py`)

A prepared window row (`prepare_signal_data` sorts the loaded rows
chronologically).  Indicator fields are `none` when the stored value is
null or the containing dict is empty/missing.  Thresholds are the
`SIGNAL_THRESHOLDS` of `config/settings.py`: RSI 30/70, STOCH 20/80,
CCI −100/100, KDJ 0/100. -/
structure Bar where
  close : Rat
  volume : Rat
  rsi : Option Rat := none
  macdLine : Option Rat := none
  macdSignal : Option Rat := none
  ma5 : Option Rat := none
  ma10 : Option Rat := none
  ma20 : Option Rat := none
  ma50 : Option Rat := none
  bbUpper : Option Rat := none
  bbMiddle : Option Rat := none
  bbLower : Option Rat := none
  kdjK : Option Rat := none
  kdjD : Option Rat := none
  kdjJ : Option Rat := none
  stochK : Option Rat := none
  stochD : Option Rat := none
  cci : Option Rat := none

/-- `min` of a list, guarded non-empty at every call site. -/
def minList (l : List Rat) : Rat := (l.min?).getD 0

/-- `max` of a list, guarded non-empty at every call site. -/
def maxList (l : List Rat) : Rat := (l.max?).getD 0

/-- The `[-1]` element, guarded non-empty at every call site. -/
def lastD (l : List Rat) : Rat := l.getLast?.getD 0

/-- `np.mean`, guarded non-empty at every call site. -/
def meanList (l : List Rat) : Rat := l.sum / (l.length : Rat)

/-- `detect_rsi_signals` (lines 55–105). -/
def detect_rsi_signals (df : List Bar) : List String :=
  if df.length < 2 then []
  else
    match df.getLast? with
    | none => []
    | some curr =>
        match curr.rsi with
        | none => []
        | some currRsi =>
            let s1 :=
              if currRsi < 30 then ["RSI_OVERSOLD"]
              else if currRsi > 70 then ["RSI_OVERBOUGHT"]
              else []
            let prevRsi : Option Rat :=
              match df.dropLast.getLast? with
              | some p => p.rsi
              | none => none
            let sdiv :=
              if 10 ≤ df.length ∧ prevRsi ≠ none then
                let last5 := df.drop (df.length - 5)
                let prices := last5.map Bar.close
                let rsis := (last5.map Bar.rsi).reduceOption
                if 3 ≤ rsis.length then
                  (if lastD prices < minList prices.dropLast ∧
                      lastD rsis > minList rsis.dropLast then
                     ["RSI_DIVERGENCE_BULLISH"] else []) ++
                  (if lastD prices > maxList prices.dropLast ∧
                      lastD rsis < maxList rsis.dropLast then
                     ["RSI_DIVERGENCE_BEARISH"] else [])
                else []
              else []
            s1 ++ sdiv

/-- `detect_macd_signals` (lines 107–169); an empty/missing `macd` dict and
a null component both suppress the cross signals, collapsed here into the
four-way `Option` match. -/
def detect_macd_signals (df : List Bar) : List String :=
  if df.length < 2 then []
  else
    match df.getLast?, df.dropLast.getLast? with
    | some curr, some prev =>
        match curr.macdLine, curr.macdSignal, prev.macdLine, prev.macdSignal with
        | some cl, some cs, some pl, some ps =>
            let s1 :=
              if pl ≤ ps ∧ cl > cs then ["MACD_BULLISH_CROSS"]
              else if pl ≥ ps ∧ cl < cs then ["MACD_BEARISH_CROSS"]
              else []
            let s2 :=
              if pl ≤ 0 ∧ cl > 0 then ["MACD_ZERO_CROSS_UP"]
              else if pl ≥ 0 ∧ cl < 0 then ["MACD_ZERO_CROSS_DOWN"]
              else []
            let sdiv :=
              if 10 ≤ df.length then
                let last5 := df.drop (df.length - 5)
                let closes := last5.map Bar.close
                let macds := (last5.map Bar.macdLine).reduceOption
                if 3 ≤ macds.length then
                  (if lastD closes < minList closes.dropLast ∧
                      lastD macds > minList macds.dropLast then
                     ["MACD_DIVERGENCE_BULLISH"] else []) ++
                  (if lastD closes > maxList closes.dropLast ∧
                      lastD macds < maxList macds.dropLast then
                     ["MACD_DIVERGENCE_BEARISH"] else [])
                else []
              else []
            s1 ++ s2 ++ sdiv
        | _, _, _, _ => []
    | _, _ => []

/-- `detect_ma_signals` (lines 171–233). -/
def detect_ma_signals (df : List Bar) : List String :=
  if df.length < 2 then []
  else
    match df.getLast?, df.dropLast.getLast? with
    | some curr, some prev =>
        match curr.ma5, curr.ma10, curr.ma20, curr.ma50 with
        | some m5, some m10, some m20, some m50 =>
            let cross :=
              match prev.ma5, prev.ma20 with
              | some p5, some p20 =>
                  if p5 ≤ p20 ∧ m5 > m20 then ["MA_GOLDEN_CROSS"]
                  else if p5 ≥ p20 ∧ m5 < m20 then ["MA_DEATH_CROSS"]
                  else []
              | _, _ => []
            let arrange :=
              if m5 > m10 ∧ m10 > m20 ∧ m20 > m50 then ["MA_BULLISH_ARRANGEMENT"]
              else if m5 < m10 ∧ m10 < m20 ∧ m20 < m50 then ["MA_BEARISH_ARRANGEMENT"]
              else []
            let pricePos :=
              if curr.close > m50 then ["PRICE_ABOVE_MA50"]
              else if curr.close < m50 then ["PRICE_BELOW_MA50"]
              else []
            cross ++ arrange ++ pricePos
        | _, _, _, _ => []
    | _, _ => []

/-- `detect_bollinger_signals` (lines 235–305).  The bandwidth loop keeps
bars whose `upper` and `lower` are present and truthy (non-zero). -/
def detect_bollinger_signals (df : List Bar) : List String :=
  if df.length < 20 then []
  else
    match df.getLast? with
    | none => []
    | some curr =>
        match curr.bbUpper, curr.bbMiddle, curr.bbLower with
        | some upper, some middle, some lower =>
            let last20 := df.drop (df.length - 20)
            let bws := last20.filterMap (fun b =>
                match b.bbUpper, b.bbLower with
                | some u, some l => if u ≠ 0 ∧ l ≠ 0 then some (u - l) else none
                | _, _ => none)
            let sband :=
              if 15 ≤ bws.length then
                let avg := meanList bws.dropLast
                let cbw := upper - lower
                if cbw < avg * 0.8 then ["BB_SQUEEZE"]
                else if cbw > avg * 1.2 then ["BB_EXPANSION"]
                else []
              else []
            let stouch :=
              if curr.close ≥ upper * 0.995 then ["BB_UPPER_TOUCH"]
              else if curr.close ≤ lower * 1.005 then ["BB_LOWER_TOUCH"]
              else []
            let scross :=
              match df.dropLast.getLast? with
              | some prev =>
                  match prev.bbMiddle with
                  | some pmid =>
                      if prev.close ≤ pmid ∧ curr.close > middle then
                        ["BB_MIDDLE_CROSS_UP"]
                      else if prev.close ≥ pmid ∧ curr.close < middle then
                        ["BB_MIDDLE_CROSS_DOWN"]
                      else []
                  | none => []
              | none => []
            sband ++ stouch ++ scross
        | _, _, _ => []

/-- `detect_kdj_signals` (lines 307–354). -/
def detect_kdj_signals (df : List Bar) : List String :=
  if df.length < 2 then []
  else
    match df.getLast?, df.dropLast.getLast? with
    | some curr, some prev =>
        match curr.kdjK, curr.kdjD, curr.kdjJ with
        | some kc, some dc, some jc =>
            let s1 :=
              if jc < 0 then ["KDJ_OVERSOLD"]
              else if jc > 100 then ["KDJ_OVERBOUGHT"]
              else []
            let s2 :=
              match prev.kdjK, prev.kdjD with
              | some kp, some dp =>
                  if kp ≤ dp ∧ kc > dc ∧ jc < 80 then ["KDJ_GOLDEN_CROSS"]
                  else if kp ≥ dp ∧ kc < dc ∧ jc > 20 then ["KDJ_DEATH_CROSS"]
                  else []
              | _, _ => []
            s1 ++ s2
        | _, _, _ => []
    | _, _ => []

/-- `detect_stochastic_signals` (lines 356–401). -/
def detect_stochastic_signals (df : List Bar) : List String :=
  if df.length < 2 then []
  else
    match df.getLast?, df.dropLast.getLast? with
    | some curr, some prev =>
        match curr.stochK, curr.stochD with
        | some kc, some dc =>
            let s1 :=
              if kc < 20 ∧ dc < 20 then ["STOCH_OVERSOLD"]
              else if kc > 80 ∧ dc > 80 then ["STOCH_OVERBOUGHT"]
              else []
            let s2 :=
              match prev.stochK, prev.stochD with
              | some kp, some dp =>
                  if kp ≤ dp ∧ kc > dc ∧ kc < 80 then ["STOCH_BULLISH_CROSS"]
                  else if kp ≥ dp ∧ kc < dc ∧ kc > 20 then ["STOCH_BEARISH_CROSS"]
                  else []
              | _, _ => []
            s1 ++ s2
        | _, _ => []
    | _, _ => []

/-- `detect_cci_signals` (lines 403–443). -/
def detect_cci_signals (df : List Bar) : List String :=
  if df.length < 2 then []
  else
    match df.getLast?, df.dropLast.getLast? with
    | some curr, some prev =>
        match curr.cci with
        | some cc =>
            let s1 :=
              if cc < -100 then ["CCI_OVERSOLD"]
              else if cc > 100 then ["CCI_OVERBOUGHT"]
              else []
            let s2 :=
              match prev.cci with
              | some cp =>
                  if cp ≤ 0 ∧ cc > 0 then ["CCI_ZERO_CROSS_UP"]
                  else if cp ≥ 0 ∧ cc < 0 then ["CCI_ZERO_CROSS_DOWN"]
                  else []
              | none => []
            s1 ++ s2
        | none => []
    | _, _ => []

/-- `detect_volume_signals` (lines 445–477): the current volume against
twice / half the mean of the prior 19 volumes. -/
def detect_volume_signals (df : List Bar) : List String :=
  if df.length < 20 then []
  else
    match df.getLast? with
    | none => []
    | some curr =>
        let recent := ((df.drop (df.length - 20)).map Bar.volume).dropLast
        let avg := meanList recent
        if curr.volume > avg * 2 then ["VOLUME_SPIKE"]
        else if curr.volume < avg * 0.5 then ["VOLUME_DRY"]
        else []

/-- `detect_all_signals` (lines 479–528) on a prepared window: run the
eight detectors in order, concatenate, deduplicate (`list(set(...))`,
embedded as a deterministic dedup; the claims are order-independent).  A
window of fewer than 2 rows yields no signals (`prepare_signal_data`
returns `None`). -/
def detect_all_signals (df : List Bar) : List String :=
  if df.length < 2 then []
  else
    (detect_rsi_signals df ++ detect_macd_signals df ++ detect_ma_signals df ++
     detect_bollinger_signals df ++ detect_kdj_signals df ++
     detect_stochastic_signals df ++ detect_cci_signals df ++
     detect_volume_signals df).dedup

/-- The closed signal taxonomy of §4.5. -/
def signalTaxonomy : List String :=
  ["RSI_OVERSOLD", "RSI_OVERBOUGHT",
   "RSI_DIVERGENCE_BULLISH", "RSI_DIVERGENCE_BEARISH",
   "MACD_BULLISH_CROSS", "MACD_BEARISH_CROSS",
   "MACD_ZERO_CROSS_UP", "MACD_ZERO_CROSS_DOWN",
   "MACD_DIVERGENCE_BULLISH", "MACD_DIVERGENCE_BEARISH",
   "MA_GOLDEN_CROSS", "MA_DEATH_CROSS",
   "MA_BULLISH_ARRANGEMENT", "MA_BEARISH_ARRANGEMENT",
   "PRICE_ABOVE_MA50", "PRICE_BELOW_MA50",
   "BB_UPPER_TOUCH", "BB_LOWER_TOUCH",
   "BB_MIDDLE_CROSS_UP", "BB_MIDDLE_CROSS_DOWN",
   "BB_SQUEEZE", "BB_EXPANSION",
   "KDJ_OVERSOLD", "KDJ_OVERBOUGHT", "KDJ_GOLDEN_CROSS", "KDJ_DEATH_CROSS",
   "STOCH_OVERSOLD", "STOCH_OVERBOUGHT",
   "STOCH_BULLISH_CROSS", "STOCH_BEARISH_CROSS",
   "CCI_OVERSOLD", "CCI_OVERBOUGHT",
   "CCI_ZERO_CROSS_UP", "CCI_ZERO_CROSS_DOWN",
   "VOLUME_SPIKE", "VOLUME_DRY"]

/-- An `if` whose branches both land in `L` lands in `L`. -/
theorem iteSubset {c : Prop} [Decidable c] {l1 l2 L : List String}
    (h1 : l1 ⊆ L) (h2 : l2 ⊆ L) : (if c then l1 else l2) ⊆ L := by
  by_cases hc : c
  · rw [if_pos hc]; exact h1
  · rw [if_neg hc]; exact h2

/-- A singleton of a taxonomy tag is contained in the taxonomy. -/
theorem taxo (s : String) (h : s ∈ signalTaxonomy) : [s] ⊆ signalTaxonomy := by
  intro x hx
  rw [List.mem_singleton] at hx
  subst hx
  exact h

theorem detect_rsi_subset (df : List Bar) :
    detect_rsi_signals df ⊆ signalTaxonomy := by
  unfold detect_rsi_signals
  by_cases h1 : df.length < 2
  · rw [if_pos h1]; exact List.nil_subset _
  · rw [if_neg h1]
    cases df.getLast? <;>
      first
      | exact List.nil_subset _
      | (dsimp only
         rename_i curr
         cases curr.rsi <;>
           first
           | exact List.nil_subset _
           | (dsimp only
              exact List.append_subset.mpr
                ⟨iteSubset (taxo "RSI_OVERSOLD" (by decide))
                  (iteSubset (taxo "RSI_OVERBOUGHT" (by decide)) (List.nil_subset _)),
                 iteSubset (iteSubset
                   (List.append_subset.mpr
                     ⟨iteSubset (taxo "RSI_DIVERGENCE_BULLISH" (by decide))
                        (List.nil_subset _),
                      iteSubset (taxo "RSI_DIVERGENCE_BEARISH" (by decide))
                        (List.nil_subset _)⟩)
                   (List.nil_subset _)) (List.nil_subset _)⟩))

theorem detect_macd_subset (df : List Bar) :
    detect_macd_signals df ⊆ signalTaxonomy := by
  unfold detect_macd_signals
  by_cases h1 : df.length < 2
  · rw [if_pos h1]; exact List.nil_subset _
  · rw [if_neg h1]
    cases df.getLast? <;> cases df.dropLast.getLast? <;>
      first
      | exact List.nil_subset _
      | (dsimp only
         rename_i curr prev
         cases curr.macdLine <;> cases curr.macdSignal <;>
           cases prev.macdLine <;> cases prev.macdSignal <;>
           first
           | exact List.nil_subset _
           | (dsimp only
              exact List.append_subset.mpr
                ⟨List.append_subset.mpr
                  ⟨iteSubset (taxo "MACD_BULLISH_CROSS" (by decide))
                    (iteSubset (taxo "MACD_BEARISH_CROSS" (by decide)) (List.nil_subset _)),
                   iteSubset (taxo "MACD_ZERO_CROSS_UP" (by decide))
                    (iteSubset (taxo "MACD_ZERO_CROSS_DOWN" (by decide)) (List.nil_subset _))⟩,
                 iteSubset (iteSubset
                   (List.append_subset.mpr
                     ⟨iteSubset (taxo "MACD_DIVERGENCE_BULLISH" (by decide))
                        (List.nil_subset _),
                      iteSubset (taxo "MACD_DIVERGENCE_BEARISH" (by decide))
                        (List.nil_subset _)⟩)
                   (List.nil_subset _)) (List.nil_subset _)⟩))

theorem detect_ma_subset (df : List Bar) :
    detect_ma_signals df ⊆ signalTaxonomy := by
  unfold detect_ma_signals
  by_cases h1 : df.length < 2
  · rw [if_pos h1]; exact List.nil_subset _
  · rw [if_neg h1]
    cases df.getLast? <;> cases df.dropLast.getLast? <;>
      first
      | exact List.nil_subset _
      | (dsimp only
         rename_i curr prev
         cases curr.ma5 <;> cases curr.ma10 <;> cases curr.ma20 <;> cases curr.ma50 <;>
           first
           | exact List.nil_subset _
           | (dsimp only
              refine List.append_subset.mpr
                ⟨List.append_subset.mpr
                  ⟨?_,
                   iteSubset (taxo "MA_BULLISH_ARRANGEMENT" (by decide))
                    (iteSubset (taxo "MA_BEARISH_ARRANGEMENT" (by decide)) (List.nil_subset _))⟩,
                 iteSubset (taxo "PRICE_ABOVE_MA50" (by decide))
                  (iteSubset (taxo "PRICE_BELOW_MA50" (by decide)) (List.nil_subset _))⟩
              cases prev.ma5 <;> cases prev.ma20 <;>
                first
                | exact List.nil_subset _
                | (dsimp only
                   exact iteSubset (taxo "MA_GOLDEN_CROSS" (by decide))
                     (iteSubset (taxo "MA_DEATH_CROSS" (by decide)) (List.nil_subset _)))))

theorem detect_bollinger_subset (df : List Bar) :
    detect_bollinger_signals df ⊆ signalTaxonomy := by
  unfold detect_bollinger_signals
  by_cases h1 : df.length < 20
  · rw [if_pos h1]; exact List.nil_subset _
  · rw [if_neg h1]
    cases df.getLast? <;>
      first
      | exact List.nil_subset _
      | (dsimp only
         rename_i curr
         cases curr.bbUpper <;> cases curr.bbMiddle <;> cases curr.bbLower <;>
           first
           | exact List.nil_subset _
           | (dsimp only
              refine List.append_subset.mpr
                ⟨List.append_subset.mpr
                  ⟨iteSubset (iteSubset (taxo "BB_SQUEEZE" (by decide))
                      (iteSubset (taxo "BB_EXPANSION" (by decide)) (List.nil_subset _)))
                    (List.nil_subset _),
                   iteSubset (taxo "BB_UPPER_TOUCH" (by decide))
                    (iteSubset (taxo "BB_LOWER_TOUCH" (by decide)) (List.nil_subset _))⟩,
                 ?_⟩
              cases df.dropLast.getLast? <;>
                first
                | exact List.nil_subset _
                | (dsimp only
                   rename_i prev
                   cases prev.bbMiddle <;>
                     first
                     | exact List.nil_subset _
                     | (dsimp only
                        exact iteSubset (taxo "BB_MIDDLE_CROSS_UP" (by decide))
                          (iteSubset (taxo "BB_MIDDLE_CROSS_DOWN" (by decide))
                            (List.nil_subset _))))))

theorem detect_kdj_subset (df : List Bar) :
    detect_kdj_signals df ⊆ signalTaxonomy := by
  unfold detect_kdj_signals
  by_cases h1 : df.length < 2
  · rw [if_pos h1]; exact List.nil_subset _
  · rw [if_neg h1]
    cases df.getLast? <;> cases df.dropLast.getLast? <;>
      first
      | exact List.nil_subset _
      | (dsimp only
         rename_i curr prev
         cases curr.kdjK <;> cases curr.kdjD <;> cases curr.kdjJ <;>
           first
           | exact List.nil_subset _
           | (dsimp only
              refine List.append_subset.mpr
                ⟨iteSubset (taxo "KDJ_OVERSOLD" (by decide))
                  (iteSubset (taxo "KDJ_OVERBOUGHT" (by decide)) (List.nil_subset _)),
                 ?_⟩
              cases prev.kdjK <;> cases prev.kdjD <;>
                first
                | exact List.nil_subset _
                | (dsimp only
                   exact iteSubset (taxo "KDJ_GOLDEN_CROSS" (by decide))
                     (iteSubset (taxo "KDJ_DEATH_CROSS" (by decide)) (List.nil_subset _)))))

theorem detect_stochastic_subset (df : List Bar) :
    detect_stochastic_signals df ⊆ signalTaxonomy := by
  unfold detect_stochastic_signals
  by_cases h1 : df.length < 2
  · rw [if_pos h1]; exact List.nil_subset _
  · rw [if_neg h1]
    cases df.getLast? <;> cases df.dropLast.getLast? <;>
      first
      | exact List.nil_subset _
      | (dsimp only
         rename_i curr prev
         cases curr.stochK <;> cases curr.stochD <;>
           first
           | exact List.nil_subset _
           | (dsimp only
              refine List.append_subset.mpr
                ⟨iteSubset (taxo "STOCH_OVERSOLD" (by decide))
                  (iteSubset (taxo "STOCH_OVERBOUGHT" (by decide)) (List.nil_subset _)),
                 ?_⟩
              cases prev.stochK <;> cases prev.stochD <;>
                first
                | exact List.nil_subset _
                | (dsimp only
                   exact iteSubset (taxo "STOCH_BULLISH_CROSS" (by decide))
                     (iteSubset (taxo "STOCH_BEARISH_CROSS" (by decide))
                       (List.nil_subset _)))))

theorem detect_cci_subset (df : List Bar) :
    detect_cci_signals df ⊆ signalTaxonomy := by
  unfold detect_cci_signals
  by_cases h1 : df.length < 2
  · rw [if_pos h1]; exact List.nil_subset _
  · rw [if_neg h1]
    cases df.getLast? <;> cases df.dropLast.getLast? <;>
      first
      | exact List.nil_subset _
      | (dsimp only
         rename_i curr prev
         cases curr.cci <;>
           first
           | exact List.nil_subset _
           | (dsimp only
              refine List.append_subset.mpr
                ⟨iteSubset (taxo "CCI_OVERSOLD" (by decide))
                  (iteSubset (taxo "CCI_OVERBOUGHT" (by decide)) (List.nil_subset _)),
                 ?_⟩
              cases prev.cci <;>
                first
                | exact List.nil_subset _
                | (dsimp only
                   exact iteSubset (taxo "CCI_ZERO_CROSS_UP" (by decide))
                     (iteSubset (taxo "CCI_ZERO_CROSS_DOWN" (by decide))
                       (List.nil_subset _)))))

theorem detect_volume_subset (df : List Bar) :
    detect_volume_signals df ⊆ signalTaxonomy := by
  unfold detect_volume_signals
  by_cases h1 : df.length < 20
  · rw [if_pos h1]; exact List.nil_subset _
  · rw [if_neg h1]
    cases df.getLast? <;>
      first
      | exact List.nil_subset _
      | (dsimp only
         exact iteSubset (taxo "VOLUME_SPIKE" (by decide))
           (iteSubset (taxo "VOLUME_DRY" (by decide)) (List.nil_subset _)))

/-- C8: on every input window, `detect_all_signals` returns only tags of
the §4.5 taxonomy, and the returned list has no duplicates. -/
theorem signal_closure :
    ∀ df : List Bar,
      (detect_all_signals df).Nodup ∧
      ∀ s ∈ detect_all_signals df, s ∈ signalTaxonomy := by
  intro df
  constructor
  · unfold detect_all_signals
    split
    · exact List.nodup_nil
    · exact List.nodup_dedup _
  · intro s hs
    unfold detect_all_signals at hs
    split at hs
    · simp at hs
    · rw [List.mem_dedup] at hs
      simp only [List.mem_append] at hs
      rcases hs with ((((((h | h) | h) | h) | h) | h) | h) | h
      · exact detect_rsi_subset df h
      · exact detect_macd_subset df h
      · exact detect_ma_subset df h
      · exact detect_bollinger_subset df h
      · exact detect_kdj_subset df h
      · exact detect_stochastic_subset df h
      · exact detect_cci_subset df h
      · exact detect_volume_subset df h

/-- The two-bar witness window: the latest bar has RSI 25, all other
indicators absent. -/
def witnessWindow : List Bar :=
  [{ close := 100, volume := 1, rsi := some 50 },
   { close := 101, volume := 1, rsi := some 25 }]

/-- Witness for `signal_closure`: on the two-bar window the detector emits
`RSI_OVERSOLD`, which lies in the taxonomy, and the output has no
duplicates. -/
theorem signal_closure_witness :
    (detect_all_signals witnessWindow).Nodup ∧
    "RSI_OVERSOLD" ∈ signalTaxonomy :=
  ⟨(signal_closure witnessWindow).1,
   (signal_closure witnessWindow).2 "RSI_OVERSOLD" (by decide)⟩

/-! ## Rule update (`api_routes.py` lines 535–545 and
`AlertManager.update_alert_rule`, lines 77–105)

The PUT body is taken as-is: only the `request_id` key is stripped, an
`updated_at` stamp is added, and the remainder is `$set` onto the stored
rule.  No field-name validation happens anywhere on this path. -/
def update_alert_rule_route (now : Int) (rules : List Doc) (ruleId : String)
    (body : List (String × BVal)) : List Doc × Bool :=
  let update_data := body.filter (fun p => !(p.1 == "request_id"))
  let updates := dictInsert update_data "updated_at" (BVal.time now)
  let isTarget : Doc → Bool := fun d => matchValue (dictGet d "id") (BVal.str ruleId)
  match rules.find? isTarget with
  | none => (rules, false)
  | some d =>
      let rules2 := updateFirst isTarget (fun x => dictUpdate x updates) rules
      (rules2, !(bvalBeqObj (dictUpdate d updates) d))

/-- The stored rule and the malformed request of the failing input. -/
def c9rules : List Doc := [[("id", BVal.str "r1"), ("name", BVal.str "n")]]

/-- A PUT body whose only field is unknown to the alert-rule entity. -/
def c9body : List (String × BVal) := [("bogus_field", BVal.num 1)]

/-- C9 (code bug): an update request whose field is not an attribute of the
alert-rule entity is not rejected — the route reports success and the
unknown field is persisted onto the stored rule, contradicting the spec's
requirement that unknown fields be rejected at the boundary. -/
theorem unknown_field_update_accepted :
    (update_alert_rule_route 99 c9rules "r1" c9body).2 = true ∧
    dictGet ((update_alert_rule_route 99 c9rules "r1" c9body).1.headD [])
      "bogus_field" = some (BVal.num 1) := ⟨rfl, rfl⟩

end Spec2Proof
